import Mathlib

/-!
# Logging_system: sinks, queue and worker

A shallow embedding of the logging library (`library/`: `Logger`, `FileLogger`,
`SocketLogger`) and of the console application's dispatch pipeline (`app/`:
`ThreadQueue`, `ConsoleApp`), followed by the properties established about them.

Conventions of the embedding

* Every member function becomes a pure function from the object's state (and the
  part of the outside world it touches) to the new state, the returned value and
  the list of operating-system operations it performed.
* Whatever the operating system decides (does the file open, does the device
  accept the bytes, what does `socket()` return, what time is it) is an explicit
  input of the call, so that every theorem quantifies over all such answers.
* `std::mutex` is a Boolean "held" flag where a member function can be entered
  while the same object's mutex is already held (`SocketLogger`).  Locking a
  mutex the calling thread already owns never returns (`Outcome.deadlock`).
* The worker thread of `ConsoleApp` is a program counter inside the application
  state; an execution is a list of atomic actions of the worker and of the
  threads calling the public interface.
-/

namespace LoggingSystem

/-! ## logger.h -/

/-- Severity of a record: `enum class LogLevel` of logger.h, in declaration order. -/
inductive LogLevel where
  | DEBUG
  | INFO
  | ERROR
  deriving DecidableEq, Repr

/-- Underlying value of the enumerator, which is what `<` on `LogLevel` compares. -/
def LogLevel.toNat : LogLevel → Nat
  | .DEBUG => 0
  | .INFO => 1
  | .ERROR => 2

instance : LT LogLevel := ⟨fun a b => a.toNat < b.toNat⟩

instance (a b : LogLevel) : Decidable (a < b) :=
  inferInstanceAs (Decidable (a.toNat < b.toNat))

/-- Result code of a sink: `enum class LoggerError` of logger.h. -/
inductive LoggerError where
  | NONE
  | FILE_OPEN_FAILED
  | WRITE_FAILED
  deriving DecidableEq, Repr

/-- Private helper `Logger::level_to_str` (the `default` branch is unreachable
for the three enumerators). -/
def level_to_str : LogLevel → String
  | .DEBUG => "DEBUG"
  | .INFO => "INFO"
  | .ERROR => "ERROR"

/-- Static function `Logger::msg_format`.  The first argument is the text that
`std::put_time(std::localtime(&time), "%Y-%m-%d %X")` produces for the current
time; the clock is read inside the function, so it is an input of the model. -/
def msg_format (now : String) (level : LogLevel) (msg : String) : String :=
  "[" ++ now ++ "] " ++ "[" ++ level_to_str level ++ "] " ++ msg

/-! ## file_logger.h, file_logger.cpp -/

/-- The states of `std::ofstream log_file` that the logger can observe:
`is_open()` and `fail()` (failbit or badbit; an output stream never sets eofbit,
so `good()` is the negation of `fail`). -/
structure OfStream where
  is_open : Bool
  fail : Bool
  deriving DecidableEq, Repr

/-- A default-constructed `std::ofstream`: no file, good state. -/
def OfStream.closed : OfStream := ⟨false, false⟩

/-- Library function `basic_ofstream::open` on a stream with no file (ISO C++
[ofstream.members]): when the underlying `filebuf::open` succeeds the stream is
open and `clear()` is called, otherwise `setstate(failbit)` is called and the
stream stays closed. -/
def OfStream.open (_s : OfStream) (ok : Bool) : OfStream :=
  if ok then ⟨true, false⟩ else ⟨false, true⟩

/-- What one `FileLogger::log` call may be told by its environment. -/
structure FileEnv where
  /-- The formatted local time read by `msg_format`. -/
  now : String
  /-- Does opening the file for appending succeed, if it is attempted. -/
  open_ok : Bool
  /-- Does the device accept the bytes, if a write is attempted. -/
  write_ok : Bool
  deriving DecidableEq, Repr

/-- Operations a `FileLogger` performs on the file system. -/
inductive FileEvent where
  | open_append (name : String) (ok : Bool)
  | write (data : String) (ok : Bool)
  deriving DecidableEq, Repr

/-- Statement `log_file << text << std::endl` on an open stream over a file whose content
is `disk`.  Formatted output starts with a sentry (ISO C++ [ostream.sentry],
[ostream.formatted.reqmts]): on a stream that is not `good()` nothing is
inserted and the error state stays, and nothing in `FileLogger` calls
`clear()`.  Otherwise the text and
the newline are buffered and `std::endl` flushes them: the bytes reach the file
(append mode: after the existing content), or the flush fails and sets badbit.
A failed write is taken to transfer no bytes. -/
def OfStream.insert_endl (s : OfStream) (disk : String) (text : String) (write_ok : Bool) :
    OfStream × String × List FileEvent :=
  if s.fail then (s, disk, [])
  else if write_ok then (s, disk ++ text ++ "\n", [.write (text ++ "\n") true])
  else ({ s with fail := true }, disk, [.write (text ++ "\n") false])

/-- Data members of `class FileLogger` (`log_mutex` is taken once per `log` call
and never re-entered, so it carries no state between sequential calls). -/
structure FileLogger where
  name : String
  log_file : OfStream
  log_level : LogLevel
  deriving DecidableEq, Repr

/-- Constructor `FileLogger::FileLogger(file_name, level)`: stores its arguments;
`log_file` is default-constructed. -/
def FileLogger.new (file_name : String) (level : LogLevel) : FileLogger :=
  ⟨file_name, OfStream.closed, level⟩

/-- Member function `FileLogger::set_log_level`. -/
def FileLogger.set_log_level (self : FileLogger) (level : LogLevel) : FileLogger :=
  { self with log_level := level }

/-- Member function `FileLogger::get_log_level`. -/
def FileLogger.get_log_level (self : FileLogger) : LogLevel := self.log_level

/-- Member function `FileLogger::get_type`. -/
def FileLogger.get_type (_self : FileLogger) : String := "file"

/-- Outcome of one `FileLogger::log` call: the returned code, the logger
afterwards, the content of the file afterwards and the operations performed. -/
structure FileResult where
  ret : LoggerError
  logger : FileLogger
  disk : String
  events : List FileEvent
  deriving DecidableEq, Repr

/-- The part of `FileLogger::log` after the open block (file_logger.cpp lines
30 to 37): insert the formatted line and `std::endl`, return `WRITE_FAILED` if
`log_file.fail()`, else `flush()` (nothing is pending after `std::endl`) and
return `NONE`.  The second argument is the stream as the open block left it and
the last one the operations performed so far. -/
def FileLogger.log_write (env : FileEnv) (self : FileLogger) (stream : OfStream)
    (disk : String) (msg : String) (level : LogLevel) (done : List FileEvent) : FileResult :=
  let w := stream.insert_endl disk (msg_format env.now level msg) env.write_ok
  if w.1.fail then
    ⟨.WRITE_FAILED, { self with log_file := w.1 }, w.2.1, done ++ w.2.2⟩
  else
    ⟨.NONE, { self with log_file := w.1 }, w.2.1, done ++ w.2.2⟩

/-- Member function `FileLogger::log(msg, level)` on a logger whose file currently holds `disk`. -/
def FileLogger.log (env : FileEnv) (self : FileLogger) (disk : String)
    (msg : String) (level : LogLevel) : FileResult :=
  if level < self.log_level then ⟨.NONE, self, disk, []⟩
  else if !self.log_file.is_open then
    let f := self.log_file.open env.open_ok
    if !f.is_open then
      ⟨.FILE_OPEN_FAILED, { self with log_file := f }, disk,
        [.open_append self.name env.open_ok]⟩
    else
      self.log_write env f disk msg level [.open_append self.name env.open_ok]
  else
    self.log_write env self.log_file disk msg level []

/-! ## socket_logger.h, socket_logger.cpp -/

/-- How a call that takes `log_mutex` ends: it returns a value, or it blocks for
ever waiting for a mutex its own thread already holds (`std::lock_guard` on a
`std::mutex` owned by the caller: undefined behaviour, a self-deadlock on the
usual implementations). -/
inductive Outcome (α : Type) where
  | returned (value : α)
  | deadlock
  deriving DecidableEq, Repr

/-- What one `SocketLogger` call may be told by its environment. -/
structure NetEnv where
  /-- The formatted local time read by `msg_format`. -/
  now : String
  /-- The descriptor `socket(AF_INET, SOCK_STREAM, 0)` returns, `none` for -1. -/
  socket_fd : Option Nat
  /-- Is `inet_pton(AF_INET, host, ..)` positive. -/
  addr_ok : Bool
  /-- Does `connect` succeed (its result is not -1). -/
  connect_ok : Bool
  /-- Does `send` succeed (its result is not -1). -/
  send_ok : Bool
  deriving DecidableEq, Repr

/-- Operations a `SocketLogger` performs on the network stack. -/
inductive NetEvent where
  | socket (result : Int)
  | connect (fd : Int) (ok : Bool)
  | close (fd : Int)
  | send (fd : Int) (data : String) (ok : Bool)
  deriving DecidableEq, Repr

/-- Data members of `class SocketLogger`; `log_mutex` is true while held. -/
structure SocketLogger where
  host : String
  port : Int
  sockfd : Int
  log_level : LogLevel
  log_mutex : Bool
  init_flag : Bool
  deriving DecidableEq, Repr

/-- Constructor `SocketLogger::SocketLogger(host, port, level)`. -/
def SocketLogger.new (host : String) (port : Int) (level : LogLevel) : SocketLogger :=
  ⟨host, port, -1, level, false, false⟩

/-- Member function `SocketLogger::set_log_level`. -/
def SocketLogger.set_log_level (self : SocketLogger) (level : LogLevel) : SocketLogger :=
  { self with log_level := level }

/-- Member function `SocketLogger::get_log_level`. -/
def SocketLogger.get_log_level (self : SocketLogger) : LogLevel := self.log_level

/-- Member function `SocketLogger::get_type`. -/
def SocketLogger.get_type (_self : SocketLogger) : String := "socket"

/-- Member function `SocketLogger::is_init`. -/
def SocketLogger.is_init (self : SocketLogger) : Bool := self.init_flag

/-- Member function `SocketLogger::is_connected`. -/
def SocketLogger.is_connected (self : SocketLogger) : Bool := self.sockfd != -1

/-- Constructing `std::lock_guard<std::mutex> lock(log_mutex)`: `none` when the
mutex is already held, in which case the constructor does not return. -/
def SocketLogger.lock (self : SocketLogger) : Option SocketLogger :=
  if self.log_mutex then none else some { self with log_mutex := true }

/-- Destroying the `std::lock_guard`. -/
def SocketLogger.unlock (self : SocketLogger) : SocketLogger :=
  { self with log_mutex := false }

/-- Private `SocketLogger::close_socket`. -/
def SocketLogger.close_socket (self : SocketLogger) : SocketLogger × List NetEvent :=
  if self.sockfd != -1 then ({ self with sockfd := -1 }, [.close self.sockfd])
  else (self, [])

/-- Result of the private `connect_to_server`, which takes no lock. -/
structure ConnectResult where
  ret : LoggerError
  logger : SocketLogger
  events : List NetEvent
  deriving DecidableEq, Repr

/-- Private `SocketLogger::connect_to_server`: `sockfd` is overwritten with the
result of `socket()`, then the address is converted and the connection made; a
failure of either closes the new socket. -/
def SocketLogger.connect_to_server (env : NetEnv) (self : SocketLogger) : ConnectResult :=
  let fd : Int := match env.socket_fd with
    | some n => (n : Int)
    | none => -1
  let s1 := { self with sockfd := fd }
  if fd = -1 then ⟨.FILE_OPEN_FAILED, s1, [.socket fd]⟩
  else if !env.addr_ok then
    let c := s1.close_socket
    ⟨.FILE_OPEN_FAILED, c.1, [.socket fd] ++ c.2⟩
  else if !env.connect_ok then
    let c := s1.close_socket
    ⟨.FILE_OPEN_FAILED, c.1, [.socket fd, .connect fd false] ++ c.2⟩
  else ⟨.NONE, s1, [.socket fd, .connect fd true]⟩

/-- Result of a public `SocketLogger` call. -/
structure NetResult where
  ret : Outcome LoggerError
  logger : SocketLogger
  events : List NetEvent
  deriving DecidableEq, Repr

/-- Member function `SocketLogger::init`. -/
def SocketLogger.init (env : NetEnv) (self : SocketLogger) : NetResult :=
  match self.lock with
  | none => ⟨.deadlock, self, []⟩
  | some s =>
    if s.init_flag then ⟨.returned .NONE, s.unlock, []⟩
    else
      let result := s.connect_to_server env
      if result.ret = .NONE then
        ⟨.returned result.ret, ({ result.logger with init_flag := true }).unlock, result.events⟩
      else
        ⟨.returned result.ret, result.logger.unlock, result.events⟩

/-- Member function `SocketLogger::reconnect`. -/
def SocketLogger.reconnect (env : NetEnv) (self : SocketLogger) : NetResult :=
  match self.lock with
  | none => ⟨.deadlock, self, []⟩
  | some s =>
    let c := s.close_socket
    let result := c.1.connect_to_server env
    ⟨.returned result.ret, result.logger.unlock, c.2 ++ result.events⟩

/-- The end of `SocketLogger::log` (socket_logger.cpp lines 103 to 112): one
`send` of the whole line; on failure the socket is closed and `WRITE_FAILED`
returned.  The guard of `log` is released on return. -/
def SocketLogger.log_send (env : NetEnv) (self : SocketLogger) (curr_msg : String)
    (done : List NetEvent) : NetResult :=
  if !env.send_ok then
    let c := self.close_socket
    ⟨.returned .WRITE_FAILED, c.1.unlock,
      done ++ [.send self.sockfd curr_msg false] ++ c.2⟩
  else
    ⟨.returned .NONE, self.unlock, done ++ [.send self.sockfd curr_msg true]⟩

/-- Member function `SocketLogger::log(msg, level)`.  The level filter and the `init_flag` test
come before the guard; the call to `reconnect()` is made while the guard of
`log` holds `log_mutex`. -/
def SocketLogger.log (env : NetEnv) (self : SocketLogger) (msg : String)
    (level : LogLevel) : NetResult :=
  if level < self.log_level then ⟨.returned .NONE, self, []⟩
  else if !self.init_flag then ⟨.returned .FILE_OPEN_FAILED, self, []⟩
  else
    let curr_msg := msg_format env.now level msg ++ "\n"
    match self.lock with
    | none => ⟨.deadlock, self, []⟩
    | some s =>
      if s.sockfd = -1 then
        let r := s.reconnect env
        match r.ret with
        | .deadlock => ⟨.deadlock, r.logger, r.events⟩
        | .returned result =>
          if result ≠ .NONE then ⟨.returned result, r.logger.unlock, r.events⟩
          else r.logger.log_send env curr_msg r.events
      else s.log_send env curr_msg []

/-! ## thread_queue.h -/

/-- Data members of `ThreadQueue<T>`: the queue, oldest item first, and the stop
flag.  Every member function runs under `curr_mutex`, so each is one atomic
step. -/
structure ThreadQueue (T : Type) where
  curr_queue : List T
  is_stop : Bool
  deriving DecidableEq, Repr

namespace ThreadQueue

variable {T : Type}

/-- A default-constructed queue: empty, not stopped. -/
def new : ThreadQueue T := ⟨[], false⟩

/-- Member function `ThreadQueue::push`. -/
def push (q : ThreadQueue T) (value : T) : ThreadQueue T :=
  { q with curr_queue := q.curr_queue ++ [value] }

/-- Member function `ThreadQueue::pop`: `none` stands for the result `false` (the output
argument is left alone), `some x` for `true` with `x` moved out. -/
def pop (q : ThreadQueue T) : Option T × ThreadQueue T :=
  match q.curr_queue with
  | [] => (none, q)
  | x :: rest => (some x, { q with curr_queue := rest })

/-- Member function `ThreadQueue::pop_with_wait`.  The outer `none` means the caller stays
blocked in `curr_condition.wait`, whose predicate `!curr_queue.empty() || is_stop`
is false; otherwise the result is as for `pop`.  The branch that would call
`front()` on an empty queue cannot be reached once the predicate holds. -/
def pop_with_wait (q : ThreadQueue T) : Option (Option T × ThreadQueue T) :=
  if !q.curr_queue.isEmpty || q.is_stop then
    if q.curr_queue.isEmpty && q.is_stop then some (none, q)
    else
      match q.curr_queue with
      | [] => none
      | x :: rest => some (some x, { q with curr_queue := rest })
  else none

/-- Member function `ThreadQueue::stop`. -/
def stop (q : ThreadQueue T) : ThreadQueue T := { q with is_stop := true }

/-- Member function `ThreadQueue::empty`. -/
def empty (q : ThreadQueue T) : Bool := q.curr_queue.isEmpty

/-- Member function `ThreadQueue::size`. -/
def size (q : ThreadQueue T) : Nat := q.curr_queue.length

/-- Member function `ThreadQueue::is_stopped`. -/
def is_stopped (q : ThreadQueue T) : Bool := q.is_stop

end ThreadQueue

/-! ## console_app.h, console_app.cpp -/

/-- Record `struct Log`: a message and its level. -/
structure Log where
  msg : String
  level : LogLevel
  deriving DecidableEq, Repr

/-- The virtual interface `class Logger`, as the functions a `ConsoleApp` calls
on the sink it owns; `σ` is the state of the sink together with whatever it
writes to. -/
structure Logger (σ : Type) where
  log : σ → String → LogLevel → LoggerError × σ
  set_log_level : σ → LogLevel → σ
  get_log_level : σ → LogLevel
  get_type : σ → String

/-- Where the thread running `ConsoleApp::log_tasks` stands. -/
inductive WorkerPc where
  /-- Thread `log_thread` has not been created. -/
  | not_started
  /-- At `while (run_flag || ..)`, about to read `run_flag`. -/
  | loop_test
  /-- Flag `run_flag` was read false; about to call `log_queue.empty()`. -/
  | loop_test_empty
  /-- In `log_queue.pop_with_wait(task)`. -/
  | wait_pop
  /-- In the body of the first loop, `task` just popped. -/
  | handle (task : Log)
  /-- At `while (log_queue.pop(task))` of the second loop. -/
  | drain_pop
  /-- In the body of the second loop, `task` just popped. -/
  | drain_handle (task : Log)
  /-- Function `log_tasks` has returned. -/
  | finished
  deriving DecidableEq, Repr

/-- Where a thread executing `ConsoleApp::close` stands. -/
inductive ClosePc where
  /-- No call of `close` is in progress. -/
  | idle
  /-- Statement `run_flag = false` is done. -/
  | flag_cleared
  /-- Statement `log_queue.stop()` is done; the join is next. -/
  | queue_stopped
  deriving DecidableEq, Repr

/-- Data members of `class ConsoleApp`, the progress of its worker thread and of
a `close` call, and the lines the worker wrote to `std::cerr`. -/
structure ConsoleApp (σ : Type) where
  logger : Option σ
  log_queue : ThreadQueue Log
  log_history : List String
  run_flag : Bool
  worker : WorkerPc
  joinable : Bool
  logger_type : String
  closer : ClosePc
  cerr : List String

/-- Static function `ConsoleApp::level_to_str` (the `default` branch is unreachable). -/
def ConsoleApp.level_to_str : LogLevel → String
  | .DEBUG => "DEBUG"
  | .INFO => "INFO"
  | .ERROR => "ERROR"

/-- Conversion `static_cast<int>(error)`. -/
def LoggerError.toInt : LoggerError → Int
  | .NONE => 0
  | .FILE_OPEN_FAILED => 1
  | .WRITE_FAILED => 2

/-- The string the first loop of `log_tasks` pushes onto `log_history`: the
content of the stream declared last before `push_back`,
`"[" << level_to_str(task.level) << "] " << task.msg << " (" << status << ")"`.
The source declares no `status`; it is the first argument here. -/
def history_entry (status : Log → LoggerError → String) (task : Log) (error : LoggerError) :
    String :=
  "[" ++ ConsoleApp.level_to_str task.level ++ "] " ++ task.msg ++ " (" ++ status task error ++ ")"

/-- The line `log_tasks` writes to `std::cerr` for an error. -/
def error_report (error : LoggerError) : String :=
  "Ошибка: " ++ toString error.toInt

namespace ConsoleApp

variable {σ : Type}

/-- Constructor `ConsoleApp::ConsoleApp(logger)`: `logger_type` is initialised
from `this->logger->get_type()`, which dereferences the pointer; with a null
pointer there is no defined result (`none`). -/
def new (L : Logger σ) (logger : Option σ) : Option (ConsoleApp σ) :=
  match logger with
  | none => none
  | some l =>
    some ⟨some l, ThreadQueue.new, [], false, .not_started, false, L.get_type l, .idle, []⟩

/-- Member function `ConsoleApp::init`: the returned flag and the new state.  Assigning a new
thread to `log_thread` while it is joinable calls `std::terminate` (`none`). -/
def init (app : ConsoleApp σ) : Option (Bool × ConsoleApp σ) :=
  match app.logger with
  | none => some (false, app)
  | some _ =>
    if app.joinable then none
    else some (true, { app with run_flag := true, worker := .loop_test, joinable := true })

/-- Member function `ConsoleApp::add_test_msg`. -/
def add_test_msg (app : ConsoleApp σ) (msg : String) (level : LogLevel) : ConsoleApp σ :=
  { app with log_queue := app.log_queue.push ⟨msg, level⟩ }

/-- Member function `ConsoleApp::get_history`. -/
def get_history (app : ConsoleApp σ) : Nat := app.log_history.length

/-- Member function `ConsoleApp::get_queue_size`. -/
def get_queue_size (app : ConsoleApp σ) : Nat := app.log_queue.size

/-- Body of the first loop of `log_tasks` for a popped `task`: call the sink,
push one entry, report an error. -/
def handle_task (L : Logger σ) (status : Log → LoggerError → String) (app : ConsoleApp σ)
    (task : Log) : Option (ConsoleApp σ) :=
  match app.logger with
  | none => none
  | some l =>
    let r := L.log l task.msg task.level
    some { app with
      logger := some r.2
      log_history := app.log_history ++ [history_entry status task r.1]
      cerr := if r.1 ≠ .NONE then app.cerr ++ [error_report r.1] else app.cerr
      worker := .loop_test }

/-- Body of the second loop of `log_tasks` for a popped `task`: call the sink
and report an error. -/
def drain_task (L : Logger σ) (app : ConsoleApp σ) (task : Log) : Option (ConsoleApp σ) :=
  match app.logger with
  | none => none
  | some l =>
    let r := L.log l task.msg task.level
    some { app with
      logger := some r.2
      cerr := if r.1 ≠ .NONE then app.cerr ++ [error_report r.1] else app.cerr
      worker := .drain_pop }

/-- One atomic step of the thread running `ConsoleApp::log_tasks`; `none` when
the thread cannot move (not created, blocked in `pop_with_wait`, returned). -/
def worker_step (L : Logger σ) (status : Log → LoggerError → String) (app : ConsoleApp σ) :
    Option (ConsoleApp σ) :=
  match app.worker with
  | .not_started => none
  | .loop_test =>
    some { app with worker := if app.run_flag then .wait_pop else .loop_test_empty }
  | .loop_test_empty =>
    some { app with worker := if !app.log_queue.empty then .wait_pop else .drain_pop }
  | .wait_pop =>
    match app.log_queue.pop_with_wait with
    | none => none
    | some (none, q) => some { app with log_queue := q, worker := .loop_test }
    | some (some task, q) => some { app with log_queue := q, worker := .handle task }
  | .handle task => handle_task L status app task
  | .drain_pop =>
    match app.log_queue.pop with
    | (none, q) => some { app with log_queue := q, worker := .finished }
    | (some task, q) => some { app with log_queue := q, worker := .drain_handle task }
  | .drain_handle task => drain_task L app task
  | .finished => none

/-- The atomic actions of an execution. -/
inductive Action where
  /-- Some thread calls `add_test_msg`. -/
  | add_test_msg (msg : String) (level : LogLevel)
  /-- In `close`: `run_flag = false`. -/
  | close_clear
  /-- In `close`: `log_queue.stop()`. -/
  | close_stop
  /-- In `close`: `if (log_thread.joinable()) log_thread.join();` and return. -/
  | close_join
  /-- The worker thread takes its next step. -/
  | worker
  deriving DecidableEq, Repr

/-- Effect of one action; `none` when the action cannot happen in this state (a
blocked thread, or a statement of `close` out of order). -/
def step (L : Logger σ) (status : Log → LoggerError → String) (app : ConsoleApp σ) :
    Action → Option (ConsoleApp σ)
  | .add_test_msg msg level => some (app.add_test_msg msg level)
  | .close_clear =>
    if app.closer = .idle then some { app with run_flag := false, closer := .flag_cleared }
    else none
  | .close_stop =>
    if app.closer = .flag_cleared then
      some { app with log_queue := app.log_queue.stop, closer := .queue_stopped }
    else none
  | .close_join =>
    if app.closer = .queue_stopped then
      if app.joinable then
        if app.worker = .finished then some { app with joinable := false, closer := .idle }
        else none
      else some { app with closer := .idle }
    else none
  | .worker => worker_step L status app

/-- An execution: the actions taken one after the other. -/
def run (L : Logger σ) (status : Log → LoggerError → String) (app : ConsoleApp σ) :
    List Action → Option (ConsoleApp σ)
  | [] => some app
  | a :: rest =>
    match step L status app a with
    | none => none
    | some app1 => run L status app1 rest

end ConsoleApp

/-- The records an execution submits, in the order of the pushes. -/
def submitted : List ConsoleApp.Action → List Log
  | [] => []
  | .add_test_msg msg level :: rest => ⟨msg, level⟩ :: submitted rest
  | _ :: rest => submitted rest

/-! ## main.cpp -/

/-- Function `parse_log_level` of main.cpp: three pairs of exact spellings, and
INFO for every other string. -/
def parse_log_level (level_str : String) : LogLevel :=
  if level_str = "DEBUG" ∨ level_str = "debug" then .DEBUG
  else if level_str = "INFO" ∨ level_str = "info" then .INFO
  else if level_str = "ERROR" ∨ level_str = "error" then .ERROR
  else .INFO

/-! ## Sequences of queue and socket operations -/

/-- Pushing the items of a list one after the other. -/
def ThreadQueue.push_all {T : Type} (q : ThreadQueue T) (values : List T) : ThreadQueue T :=
  values.foldl ThreadQueue.push q

/-- Calling `pop` a number of times: the results in the order of the calls, and
the queue left. -/
def ThreadQueue.pop_many {T : Type} : Nat → ThreadQueue T → List (Option T) × ThreadQueue T
  | 0, q => ([], q)
  | n + 1, q => ((q.pop).1 :: (ThreadQueue.pop_many n (q.pop).2).1,
      (ThreadQueue.pop_many n (q.pop).2).2)

/-- The socket descriptors that are open after a list of operations, given the
ones open before: `socket` adds the descriptor it returns (nothing for -1) and
`close` removes its argument. -/
def live_descriptors (live : List Int) : List NetEvent → List Int
  | [] => live
  | .socket result :: rest =>
    live_descriptors (if result = -1 then live else result :: live) rest
  | .close fd :: rest => live_descriptors (live.erase fd) rest
  | _ :: rest => live_descriptors live rest

/-! ## A file sink behind the `Logger` interface -/

/-- A `FileLogger` with the content of its file and the answers its environment
gives to each call, as the state of a sink. -/
structure FileSink where
  logger : FileLogger
  disk : String
  env : FileEnv
  deriving DecidableEq, Repr

/-- The `Logger` interface as `FileLogger` implements it. -/
def FileSink.asLogger : Logger FileSink where
  log := fun s msg level =>
    ((s.logger.log s.env s.disk msg level).ret,
      { s with
        logger := (s.logger.log s.env s.disk msg level).logger
        disk := (s.logger.log s.env s.disk msg level).disk })
  set_log_level := fun s level => { s with logger := s.logger.set_log_level level }
  get_log_level := fun s => s.logger.get_log_level
  get_type := fun s => s.logger.get_type

/-- One way to fill in the `status` text of a history entry, used in examples. -/
def example_status : Log → LoggerError → String :=
  fun _ error =>
    match error with
    | .NONE => "ok"
    | _ => "error"

/-- A file sink for examples: an INFO logger on an empty file that opens and
accepts writes when `usable`, and cannot be opened otherwise. -/
def example_sink (usable : Bool) : FileSink :=
  ⟨FileLogger.new "app.txt" .INFO, "", ⟨"t", usable, true⟩⟩

/-- The application of the examples right after a successful `init` on a usable
file sink. -/
def example_app : ConsoleApp FileSink :=
  ⟨some (example_sink true), ⟨[], false⟩, [], true, .loop_test, true, "file", .idle, []⟩

/-! ## Bookkeeping of an execution -/

namespace ConsoleApp

variable {σ : Type}

/-- The records the application holds that have no history entry yet: the one
the worker has popped and is handling, then the queue. -/
def pending (app : ConsoleApp σ) : List Log :=
  match app.worker with
  | .handle task => task :: app.log_queue.curr_queue
  | .drain_handle task => task :: app.log_queue.curr_queue
  | _ => app.log_queue.curr_queue

/-- Every record of `pushed` is either still pending or has its history entry,
the entries standing in the order of the pushes. -/
def Accounted (status : Log → LoggerError → String) (app : ConsoleApp σ)
    (pushed : List Log) : Prop :=
  ∃ (handled : List Log) (errors : List LoggerError),
    pushed = handled ++ app.pending ∧ errors.length = handled.length ∧
    app.log_history = List.zipWith (history_entry status) handled errors

/-- What holds between `init` and the first call of `close`. -/
structure Running (status : Log → LoggerError → String) (app : ConsoleApp σ)
    (pushed : List Log) : Prop where
  has_logger : app.logger.isSome = true
  flag : app.run_flag = true
  no_close : app.closer = .idle
  thread : app.joinable = true
  pc : app.worker = .loop_test ∨ app.worker = .wait_pop ∨ ∃ task, app.worker = .handle task
  accounted : Accounted status app pushed

/-- What holds from the first call of `close` on, as long as nothing is pushed. -/
structure Closing (status : Log → LoggerError → String) (app : ConsoleApp σ)
    (pushed : List Log) : Prop where
  has_logger : app.logger.isSome = true
  started : app.worker ≠ .not_started
  no_drain : ∀ task, app.worker ≠ .drain_handle task
  drained : app.worker = .drain_pop ∨ app.worker = .finished → app.log_queue.curr_queue = []
  joined : app.closer = .idle ∨ app.joinable = false → app.worker = .finished
  accounted : Accounted status app pushed

end ConsoleApp

/-! ## What the sink has received -/

/-- The sink after `Logger::log` has been called for each of the records, in
their order. -/
def deliver {σ : Type} (L : Logger σ) (sink : σ) (records : List Log) : σ :=
  records.foldl (fun s r => (L.log s r.msg r.level).2) sink

/-- The line a file sink writes for a record at time `now`, terminator included. -/
def formatted_line (now : String) (r : Log) : String :=
  msg_format now r.level r.msg ++ "\n"

/-- The content of a file after one line per record has been appended to
`disk`, in the order of the records. -/
def append_lines (now : String) (disk : String) (records : List Log) : String :=
  records.foldl (fun d r => d ++ formatted_line now r) disk

namespace ConsoleApp

variable {σ : Type}

/-- Every record of `pushed` is either still pending or has been passed to the
sink, which has received exactly those records in the order of the pushes,
starting from the state `sink`. -/
def Delivered (L : Logger σ) (sink : σ) (app : ConsoleApp σ) (pushed : List Log) : Prop :=
  ∃ handled : List Log,
    pushed = handled ++ app.pending ∧ app.logger = some (deliver L sink handled)

/-- What holds from the first call of `close` on, whatever is pushed meanwhile;
`queued` are the records pushed before that call. -/
structure Stopping (queued : List Log) (app : ConsoleApp σ) (pushed : List Log) : Prop where
  started : app.worker ≠ .not_started
  joined : app.closer = .idle ∨ app.joinable = false → app.worker = .finished
  queued_first : ∃ later : List Log, pushed = queued ++ later
  queued_done : app.worker = .finished →
    ∃ more : List Log, pushed = queued ++ more ++ app.pending

/-- The statements of `close` take effect in their order, and a joined worker
has returned. -/
structure CloseOrder (app : ConsoleApp σ) : Prop where
  cleared : app.closer ≠ .idle → app.run_flag = false
  stopped : app.closer = .queue_stopped → app.log_queue.is_stop = true
  joined : app.joinable = false →
    app.worker = .finished ∧ app.run_flag = false ∧ app.log_queue.is_stop = true

end ConsoleApp

/-! ## Properties of the file sink -/

/-- The two spellings of the text in front of the message agree. -/
theorem msg_format_eq (now : String) (level : LogLevel) (msg : String) :
    msg_format now level msg = "[" ++ now ++ "] [" ++ level_to_str level ++ "] " ++ msg := by
  simp only [msg_format, String.append_assoc]
  rfl

/-- An accepted `FileLogger::log` on a stream that is open but in a failed state
writes nothing and returns `WRITE_FAILED`, whatever the device would do. -/
theorem FileLogger.log_failed_stream (env : FileEnv) (f : FileLogger) (disk msg : String)
    (level : LogLevel) (haccept : ¬ level < f.log_level)
    (hopen : f.log_file.is_open = true) (hfail : f.log_file.fail = true) :
    f.log env disk msg level = ⟨.WRITE_FAILED, f, disk, []⟩ := by
  simp [FileLogger.log, FileLogger.log_write, OfStream.insert_endl, haccept, hopen, hfail]

/-- An accepted `FileLogger::log` whose stream is usable (closed and the open
succeeds, or open and in good state) and whose write the device accepts. -/
theorem FileLogger.log_written (env : FileEnv) (f : FileLogger) (disk msg : String)
    (level : LogLevel) (haccept : ¬ level < f.log_level)
    (hopen : f.log_file.is_open = false → env.open_ok = true)
    (hgood : f.log_file.is_open = true → f.log_file.fail = false)
    (hwrite : env.write_ok = true) :
    f.log env disk msg level =
      ⟨.NONE, { f with log_file := ⟨true, false⟩ }, disk ++ msg_format env.now level msg ++ "\n",
        (if f.log_file.is_open then [] else [.open_append f.name true]) ++
          [.write (msg_format env.now level msg ++ "\n") true]⟩ := by
  obtain ⟨name, ⟨is_open, fail⟩, lvl⟩ := f
  cases is_open
  · simp at hopen
    simp [FileLogger.log, FileLogger.log_write, OfStream.insert_endl, OfStream.open, haccept,
      hopen, hwrite]
  · simp at hgood
    simp [FileLogger.log, FileLogger.log_write, OfStream.insert_endl, haccept, hgood, hwrite]

/-- C3: for both sinks, a record whose level is strictly below the sink's current
threshold (DEBUG < INFO < ERROR) makes `log` return NONE with the sink and its
output exactly as before and no operation performed: no file opened and nothing
written by a `FileLogger`, no connection attempted and nothing sent by a
`SocketLogger`, whether or not it was ever initialised. -/
theorem C3_log_below_threshold_is_noop (fenv : FileEnv) (f : FileLogger) (disk : String)
    (nenv : NetEnv) (s : SocketLogger) (msg : String) (level : LogLevel) :
    (LogLevel.DEBUG < LogLevel.INFO ∧ LogLevel.INFO < LogLevel.ERROR) ∧
    (level < f.log_level → f.log fenv disk msg level = ⟨.NONE, f, disk, []⟩) ∧
    (level < s.log_level → s.log nenv msg level = ⟨.returned .NONE, s, []⟩) := by
  refine ⟨by decide, ?_, ?_⟩
  · intro h
    simp [FileLogger.log, h]
  · intro h
    simp [SocketLogger.log, h]

/-- C3 at the inputs of the tests: a DEBUG record on INFO sinks, the socket sink
never initialised. -/
theorem C3_log_below_threshold_is_noop_witness :
    (FileLogger.new "test_level.log" .INFO).log ⟨"2024-01-15 14:30:25", true, true⟩ ""
        "debug" .DEBUG
      = ⟨.NONE, FileLogger.new "test_level.log" .INFO, "", []⟩ ∧
    (SocketLogger.new "127.0.0.1" 8080 .INFO).log
        ⟨"2024-01-15 14:30:25", some 3, true, true, true⟩ "debug" .DEBUG
      = ⟨.returned .NONE, SocketLogger.new "127.0.0.1" 8080 .INFO, []⟩ :=
  ⟨(C3_log_below_threshold_is_noop ⟨"2024-01-15 14:30:25", true, true⟩
      (FileLogger.new "test_level.log" .INFO) ""
      ⟨"2024-01-15 14:30:25", some 3, true, true, true⟩
      (SocketLogger.new "127.0.0.1" 8080 .INFO) "debug" .DEBUG).2.1 (by decide),
   (C3_log_below_threshold_is_noop ⟨"2024-01-15 14:30:25", true, true⟩
      (FileLogger.new "test_level.log" .INFO) ""
      ⟨"2024-01-15 14:30:25", some 3, true, true, true⟩
      (SocketLogger.new "127.0.0.1" 8080 .INFO) "debug" .DEBUG).2.2 (by decide)⟩

/-- C4: an accepted `FileLogger::log` (level at or above the threshold) on a file
that opens (it is already open with its stream in good state, or it is closed
and the open succeeds) and accepts the write returns NONE and appends to the
earlier content exactly the text "[" + timestamp + "] [" + LEVEL + "] " + message
followed by the line terminator, in one write, LEVEL being DEBUG, INFO or ERROR
according to the level of the record. -/
theorem C4_file_log_appends_formatted_line (env : FileEnv) (f : FileLogger)
    (disk msg : String) (level : LogLevel) (haccept : ¬ level < f.log_level)
    (hopen : f.log_file.is_open = false → env.open_ok = true)
    (hgood : f.log_file.is_open = true → f.log_file.fail = false)
    (hwrite : env.write_ok = true) :
    (f.log env disk msg level).ret = .NONE ∧
    (f.log env disk msg level).disk =
      disk ++ ("[" ++ env.now ++ "] [" ++
        (match level with
          | .DEBUG => "DEBUG"
          | .INFO => "INFO"
          | .ERROR => "ERROR") ++ "] " ++ msg) ++ "\n" ∧
    ((f.log env disk msg level).events.filter
        (fun e => match e with
          | .write _ _ => true
          | _ => false)).length = 1 := by
  rw [FileLogger.log_written env f disk msg level haccept hopen hgood hwrite, msg_format_eq]
  refine ⟨rfl, ?_, ?_⟩
  · cases level <;> rfl
  · cases f.log_file.is_open <;> simp

/-- C4 at the input of `test_file_format`, on a file that already has a line. -/
theorem C4_file_log_appends_formatted_line_witness :
    ((FileLogger.new "test_format.log" .INFO).log ⟨"2024-01-15 14:30:25", true, true⟩
        "old line\n" "test msg" .INFO).ret = .NONE ∧
    ((FileLogger.new "test_format.log" .INFO).log ⟨"2024-01-15 14:30:25", true, true⟩
        "old line\n" "test msg" .INFO).disk
      = "old line\n[2024-01-15 14:30:25] [INFO] test msg\n" :=
  ⟨(C4_file_log_appends_formatted_line ⟨"2024-01-15 14:30:25", true, true⟩
      (FileLogger.new "test_format.log" .INFO) "old line\n" "test msg" .INFO
      (by decide) (by decide) (by decide) rfl).1,
   (C4_file_log_appends_formatted_line ⟨"2024-01-15 14:30:25", true, true⟩
      (FileLogger.new "test_format.log" .INFO) "old line\n" "test msg" .INFO
      (by decide) (by decide) (by decide) rfl).2.1⟩

/-- C5: constructing a `FileLogger` leaves the file closed and cannot fail (the
constructor is a total function that performs no operation).  An accepted `log`
call on a closed logger whose open fails returns FILE_OPEN_FAILED, writes
nothing, leaves the file content alone and the sink closed with its name and
threshold; any later accepted call on that sink starts by trying to open the
same file again, and returns NONE with its line appended if that open and the
write succeed, while a further failure leaves the sink closed once more. -/
theorem C5_file_open_failure_is_retried (file_name : String) (threshold : LogLevel)
    (env env2 : FileEnv) (f : FileLogger) (disk msg msg2 : String) (level level2 : LogLevel)
    (hclosed : f.log_file.is_open = false) (haccept : ¬ level < f.log_level)
    (hfail : env.open_ok = false) (haccept2 : ¬ level2 < f.log_level) :
    (FileLogger.new file_name threshold).log_file.is_open = false ∧
    (f.log env disk msg level).ret = .FILE_OPEN_FAILED ∧
    (f.log env disk msg level).disk = disk ∧
    (f.log env disk msg level).events = [.open_append f.name false] ∧
    (f.log env disk msg level).logger.log_file.is_open = false ∧
    (f.log env disk msg level).logger.name = f.name ∧
    (f.log env disk msg level).logger.log_level = f.log_level ∧
    ((f.log env disk msg level).logger.log env2 disk msg2 level2).events.head?
      = some (.open_append f.name env2.open_ok) ∧
    (env2.open_ok = true → env2.write_ok = true →
      ((f.log env disk msg level).logger.log env2 disk msg2 level2).ret = .NONE ∧
      ((f.log env disk msg level).logger.log env2 disk msg2 level2).disk
        = disk ++ msg_format env2.now level2 msg2 ++ "\n") ∧
    (env2.open_ok = false →
      ((f.log env disk msg level).logger.log env2 disk msg2 level2).ret = .FILE_OPEN_FAILED ∧
      ((f.log env disk msg level).logger.log env2 disk msg2 level2).logger.log_file.is_open
        = false) := by
  have h1 : f.log env disk msg level
      = ⟨.FILE_OPEN_FAILED, { f with log_file := ⟨false, true⟩ }, disk,
          [.open_append f.name false]⟩ := by
    simp [FileLogger.log, OfStream.open, haccept, hclosed, hfail]
  rw [h1]
  refine ⟨rfl, rfl, rfl, rfl, rfl, rfl, rfl, ?_, ?_, ?_⟩
  · cases hopen2 : env2.open_ok <;> cases hwrite2 : env2.write_ok <;>
      simp [FileLogger.log, FileLogger.log_write, OfStream.insert_endl, OfStream.open,
        haccept2, hopen2, hwrite2]
  · intro hopen2 hwrite2
    simp [FileLogger.log, FileLogger.log_write, OfStream.insert_endl, OfStream.open,
      haccept2, hopen2, hwrite2]
  · intro hopen2
    simp [FileLogger.log, OfStream.open, haccept2, hopen2]

/-- C5 at the input of `test_file_invalid_path`: the open fails, then a second
call finds the path usable. -/
theorem C5_file_open_failure_is_retried_witness :
    ((FileLogger.new "/invalid/path/test.log" .INFO).log ⟨"t1", false, true⟩ ""
        "test" .INFO).ret = .FILE_OPEN_FAILED ∧
    (((FileLogger.new "/invalid/path/test.log" .INFO).log ⟨"t1", false, true⟩ ""
        "test" .INFO).logger.log ⟨"t2", true, true⟩ "" "again" .ERROR).ret = .NONE :=
  ⟨(C5_file_open_failure_is_retried "/invalid/path/test.log" .INFO ⟨"t1", false, true⟩
      ⟨"t2", true, true⟩ (FileLogger.new "/invalid/path/test.log" .INFO) "" "test" "again"
      .INFO .ERROR rfl (by decide) rfl (by decide)).2.1,
   ((C5_file_open_failure_is_retried "/invalid/path/test.log" .INFO ⟨"t1", false, true⟩
      ⟨"t2", true, true⟩ (FileLogger.new "/invalid/path/test.log" .INFO) "" "test" "again"
      .INFO .ERROR rfl (by decide) rfl (by decide)).2.2.2.2.2.2.2.2.1 rfl rfl).1⟩

/-- C6: evaluation at the failing input.  A new logger writes one line (first
part).  The next accepted record meets a device that refuses the write: `log`
returns WRITE_FAILED and the file stays open (second part).  The record after
that finds the device willing again, yet `log` performs no operation at all (no
open, no write), leaves the file as it was and returns WRITE_FAILED once more
(third part): the error state of the stream is never cleared, so the insertion
is skipped. -/
theorem C6_write_failure_is_never_retried :
    FileLogger.log ⟨"t1", true, true⟩ (FileLogger.new "app.txt" .INFO) "" "first" .INFO
      = ⟨.NONE, ⟨"app.txt", ⟨true, false⟩, .INFO⟩, "[t1] [INFO] first\n",
          [.open_append "app.txt" true, .write "[t1] [INFO] first\n" true]⟩ ∧
    FileLogger.log ⟨"t2", true, false⟩ ⟨"app.txt", ⟨true, false⟩, .INFO⟩
        "[t1] [INFO] first\n" "second" .INFO
      = ⟨.WRITE_FAILED, ⟨"app.txt", ⟨true, true⟩, .INFO⟩, "[t1] [INFO] first\n",
          [.write "[t2] [INFO] second\n" false]⟩ ∧
    FileLogger.log ⟨"t3", true, true⟩ ⟨"app.txt", ⟨true, true⟩, .INFO⟩
        "[t1] [INFO] first\n" "third" .INFO
      = ⟨.WRITE_FAILED, ⟨"app.txt", ⟨true, true⟩, .INFO⟩, "[t1] [INFO] first\n", []⟩ := by
  decide

/-! ## Properties of the socket sink -/

/-- Called while `log_mutex` is held, `reconnect` does not get past its guard. -/
theorem SocketLogger.reconnect_while_locked (env : NetEnv) (s : SocketLogger)
    (hheld : s.log_mutex = true) : s.reconnect env = ⟨.deadlock, s, []⟩ := by
  simp [SocketLogger.reconnect, SocketLogger.lock, hheld]

/-- An accepted `log` on an initialised sink without a connection never returns:
it takes `log_mutex`, calls `reconnect()`, and blocks in the guard of
`reconnect` before any socket is created; nothing is sent. -/
theorem SocketLogger.log_dead_connection (env : NetEnv) (s : SocketLogger) (msg : String)
    (level : LogLevel) (haccept : ¬ level < s.log_level) (hinit : s.init_flag = true)
    (hdead : s.sockfd = -1) (hfree : s.log_mutex = false) :
    s.log env msg level = ⟨.deadlock, { s with log_mutex := true }, []⟩ := by
  simp [SocketLogger.log, SocketLogger.lock, SocketLogger.reconnect, haccept, hinit, hdead,
    hfree]

/-- C7: evaluation at the failing input.  A sink is initialised by `init` and
then loses its connection in a failed send, which leaves it initialised with
sockfd = -1.  On the next accepted record, whether the server can be reached
(second part) or not (third part), `log` does not return: it blocks with
`log_mutex` held, having made no connection attempt and sent nothing.  Outside
`log`, on the same sink and with the same answers, `reconnect()` connects in
the first case and returns FILE_OPEN_FAILED in the second. -/
theorem C7_log_on_dead_connection_blocks :
    (SocketLogger.log ⟨"t", some 4, true, true, false⟩
        (SocketLogger.init ⟨"t", some 3, true, true, true⟩
          (SocketLogger.new "127.0.0.1" 8080 .INFO)).logger "lost" .INFO).logger
      = ⟨"127.0.0.1", 8080, -1, .INFO, false, true⟩ ∧
    SocketLogger.log ⟨"t", some 3, true, true, true⟩ ⟨"127.0.0.1", 8080, -1, .INFO, false, true⟩
        "msg" .INFO
      = ⟨.deadlock, ⟨"127.0.0.1", 8080, -1, .INFO, true, true⟩, []⟩ ∧
    SocketLogger.log ⟨"t", some 3, true, false, true⟩ ⟨"127.0.0.1", 8080, -1, .INFO, false, true⟩
        "msg" .INFO
      = ⟨.deadlock, ⟨"127.0.0.1", 8080, -1, .INFO, true, true⟩, []⟩ ∧
    SocketLogger.reconnect ⟨"t", some 3, true, true, true⟩
        ⟨"127.0.0.1", 8080, -1, .INFO, false, true⟩
      = ⟨.returned .NONE, ⟨"127.0.0.1", 8080, 3, .INFO, false, true⟩,
          [.socket 3, .connect 3 true]⟩ ∧
    SocketLogger.reconnect ⟨"t", some 3, true, false, true⟩
        ⟨"127.0.0.1", 8080, -1, .INFO, false, true⟩
      = ⟨.returned .FILE_OPEN_FAILED, ⟨"127.0.0.1", 8080, -1, .INFO, false, true⟩,
          [.socket 3, .connect 3 false, .close 3]⟩ := by
  decide

/-- When the send of an accepted record fails on a connected sink, `log` returns
WRITE_FAILED having closed the descriptor it sent on, so that `is_connected()`
is false afterwards; the guard is released and `init_flag` stays set. -/
theorem SocketLogger.log_send_failure (env : NetEnv) (s : SocketLogger)
    (msg : String) (level : LogLevel) (haccept : ¬ level < s.log_level)
    (hinit : s.init_flag = true) (hconn : s.is_connected = true) (hfree : s.log_mutex = false)
    (hsend : env.send_ok = false) :
    s.log env msg level
      = ⟨.returned .WRITE_FAILED, { s with sockfd := -1 },
          [.send s.sockfd (msg_format env.now level msg ++ "\n") false, .close s.sockfd]⟩ ∧
    (s.log env msg level).logger.is_connected = false := by
  have hfd : s.sockfd ≠ -1 := by
    simpa [SocketLogger.is_connected] using hconn
  have h1 : s.log env msg level
      = ⟨.returned .WRITE_FAILED, { s with sockfd := -1 },
          [.send s.sockfd (msg_format env.now level msg ++ "\n") false, .close s.sockfd]⟩ := by
    obtain ⟨host, port, sockfd, lvl, mtx, flag⟩ := s
    simp at hinit hfree hfd haccept
    subst hinit hfree
    simp [SocketLogger.log, SocketLogger.lock, SocketLogger.log_send,
      SocketLogger.close_socket, SocketLogger.unlock, haccept, hfd, hsend]
  refine ⟨h1, ?_⟩
  rw [h1]
  simp [SocketLogger.is_connected]

/-- C8: evaluation at the failing input.  A sink is connected by `init` on
descriptor 3 (first part).  The send of an accepted record fails: `log` returns
WRITE_FAILED having closed descriptor 3, and `is_connected()` is false
afterwards, as claimed (second and third part).  The next accepted `log` call,
with the server reachable, does not send on the dead descriptor, but it makes
no reconnect attempt either: it performs no operation at all, neither `socket`
nor `connect`, and never returns, blocked with `log_mutex` held in the guard of
the `reconnect()` it calls (fourth part).  Called outside `log` on the same
sink with the same answers, `reconnect()` creates descriptor 4 and connects
(fifth part). -/
theorem C8_next_log_after_send_failure_makes_no_attempt :
    SocketLogger.init ⟨"t0", some 3, true, true, true⟩
        (SocketLogger.new "127.0.0.1" 8080 .INFO)
      = ⟨.returned .NONE, ⟨"127.0.0.1", 8080, 3, .INFO, false, true⟩,
          [.socket 3, .connect 3 true]⟩ ∧
    SocketLogger.log ⟨"t1", some 4, true, true, false⟩
        ⟨"127.0.0.1", 8080, 3, .INFO, false, true⟩ "lost" .ERROR
      = ⟨.returned .WRITE_FAILED, ⟨"127.0.0.1", 8080, -1, .INFO, false, true⟩,
          [.send 3 "[t1] [ERROR] lost\n" false, .close 3]⟩ ∧
    SocketLogger.is_connected ⟨"127.0.0.1", 8080, -1, .INFO, false, true⟩ = false ∧
    SocketLogger.log ⟨"t2", some 4, true, true, true⟩
        ⟨"127.0.0.1", 8080, -1, .INFO, false, true⟩ "next" .ERROR
      = ⟨.deadlock, ⟨"127.0.0.1", 8080, -1, .INFO, true, true⟩, []⟩ ∧
    SocketLogger.reconnect ⟨"t2", some 4, true, true, true⟩
        ⟨"127.0.0.1", 8080, -1, .INFO, false, true⟩
      = ⟨.returned .NONE, ⟨"127.0.0.1", 8080, 4, .INFO, false, true⟩,
          [.socket 4, .connect 4 true]⟩ := by
  decide

/-- C9, refuted as stated: on a sink that was never initialised an accepted
`log` makes no connection attempt and sends nothing; it returns
FILE_OPEN_FAILED although the attempt would have succeeded (as `init` with the
same answers shows), and the following send as well. -/
theorem C9_uninitialised_log_makes_no_attempt :
    SocketLogger.log ⟨"t", some 3, true, true, true⟩ (SocketLogger.new "127.0.0.1" 8080 .INFO)
        "msg" .INFO
      = ⟨.returned .FILE_OPEN_FAILED, SocketLogger.new "127.0.0.1" 8080 .INFO, []⟩ ∧
    (SocketLogger.init ⟨"t", some 3, true, true, true⟩
        (SocketLogger.new "127.0.0.1" 8080 .INFO)).ret = .returned .NONE := by
  decide

/-- C9 as amended: an accepted `log` on a sink whose `init_flag` is not set
returns FILE_OPEN_FAILED at once, whatever a connection attempt would give: the
sink is unchanged, no connection is attempted and nothing is sent. -/
theorem C9_uninitialised_log_fails_without_attempt (env : NetEnv) (s : SocketLogger)
    (msg : String) (level : LogLevel) (haccept : ¬ level < s.log_level)
    (hinit : s.init_flag = false) :
    s.log env msg level = ⟨.returned .FILE_OPEN_FAILED, s, []⟩ := by
  simp [SocketLogger.log, haccept, hinit]

/-- C9 as amended, on a freshly constructed sink with an unreachable server. -/
theorem C9_uninitialised_log_fails_without_attempt_witness :
    SocketLogger.log ⟨"t", some 3, true, false, true⟩ (SocketLogger.new "127.0.0.1" 8080 .INFO)
        "msg" .ERROR
      = ⟨.returned .FILE_OPEN_FAILED, SocketLogger.new "127.0.0.1" 8080 .INFO, []⟩ :=
  C9_uninitialised_log_fails_without_attempt ⟨"t", some 3, true, false, true⟩
    (SocketLogger.new "127.0.0.1" 8080 .INFO) "msg" .ERROR (by decide) rfl

/-- C10, refuted as stated.  First: after a successful `init` and a failed send
the sink is initialised but not connected; `init` returns NONE there and the
sink is still not connected.  Second: a sink connected by `reconnect()` alone
is connected but not initialised; `init` makes a new connection attempt there
and changes the state (the descriptor 3 is replaced by 4). -/
theorem C10_init_none_without_connection :
    SocketLogger.init ⟨"t", some 4, true, true, true⟩ ⟨"127.0.0.1", 8080, -1, .INFO, false, true⟩
      = ⟨.returned .NONE, ⟨"127.0.0.1", 8080, -1, .INFO, false, true⟩, []⟩ ∧
    SocketLogger.is_connected ⟨"127.0.0.1", 8080, -1, .INFO, false, true⟩ = false ∧
    (SocketLogger.log ⟨"t", some 4, true, true, false⟩
        (SocketLogger.init ⟨"t", some 3, true, true, true⟩
          (SocketLogger.new "127.0.0.1" 8080 .INFO)).logger "msg" .INFO).logger
      = ⟨"127.0.0.1", 8080, -1, .INFO, false, true⟩ ∧
    (SocketLogger.reconnect ⟨"t", some 3, true, true, true⟩
        (SocketLogger.new "127.0.0.1" 8080 .INFO)).logger
      = ⟨"127.0.0.1", 8080, 3, .INFO, false, false⟩ ∧
    SocketLogger.init ⟨"t", some 4, true, true, true⟩ ⟨"127.0.0.1", 8080, 3, .INFO, false, false⟩
      = ⟨.returned .NONE, ⟨"127.0.0.1", 8080, 4, .INFO, false, true⟩,
          [.socket 4, .connect 4 true]⟩ := by
  decide

/-- C10 as amended: `init` is idempotent once it has succeeded.  Called between
other calls (the mutex is free) on a sink whose `init_flag` is set, it returns
NONE without any operation and leaves the state unchanged; and whenever it
returns NONE, `is_init()` is true when it returns, and `is_connected()` is true
as well if this call made the connection attempt (`init_flag` was not set). -/
theorem C10_init_idempotent_on_init_flag (env : NetEnv) (s : SocketLogger)
    (hfree : s.log_mutex = false) :
    (s.init_flag = true → s.init env = ⟨.returned .NONE, s, []⟩) ∧
    ((s.init env).ret = .returned .NONE → (s.init env).logger.is_init = true) ∧
    (s.init_flag = false → (s.init env).ret = .returned .NONE →
      (s.init env).logger.is_connected = true) := by
  obtain ⟨host, port, sockfd, lvl, mtx, flag⟩ := s
  obtain ⟨now, sfd, addr_ok, connect_ok, send_ok⟩ := env
  simp at hfree
  subst hfree
  refine ⟨?_, ?_, ?_⟩
  · intro h
    simp at h
    subst h
    simp [SocketLogger.init, SocketLogger.lock, SocketLogger.unlock]
  · cases flag <;> cases sfd <;> cases addr_ok <;> cases connect_ok <;>
      simp [SocketLogger.init, SocketLogger.lock, SocketLogger.unlock,
        SocketLogger.connect_to_server, SocketLogger.close_socket, SocketLogger.is_init]
  · intro h
    simp at h
    subst h
    cases sfd <;> cases addr_ok <;> cases connect_ok <;>
      simp [SocketLogger.init, SocketLogger.lock, SocketLogger.unlock,
        SocketLogger.connect_to_server, SocketLogger.close_socket, SocketLogger.is_connected]

/-- C10 as amended, on the sink left by a successful `init`. -/
theorem C10_init_idempotent_on_init_flag_witness :
    SocketLogger.init ⟨"t", some 4, true, true, true⟩ ⟨"127.0.0.1", 8080, 3, .INFO, false, true⟩
      = ⟨.returned .NONE, ⟨"127.0.0.1", 8080, 3, .INFO, false, true⟩, []⟩ :=
  (C10_init_idempotent_on_init_flag ⟨"t", some 4, true, true, true⟩
    ⟨"127.0.0.1", 8080, 3, .INFO, false, true⟩ rfl).1 rfl

/-! ## Properties of the worker -/

/-- C2: in the consumer loop of the worker (the first loop of `log_tasks`), for
any sink and so whatever `Logger::log` returns for the popped record, the worker
appends exactly one entry for it to `log_history` and goes back to the loop
test; with a further record in the queue, the next steps of the worker (three
while `run_flag` is set, four once it is cleared) pop that record, pass it to
the sink as left by the first call, and append its entry too, also when the
first call returned an error. -/
theorem C2_one_history_entry_whatever_sink_returns {σ : Type} (L : Logger σ)
    (status : Log → LoggerError → String) (app : ConsoleApp σ) (l : σ) (task next : Log)
    (rest : List Log) (hl : app.logger = some l) (hpc : app.worker = .handle task)
    (hq : app.log_queue.curr_queue = next :: rest) :
    ∃ app1 app2 : ConsoleApp σ,
      ConsoleApp.worker_step L status app = some app1 ∧
      app1.log_history
        = app.log_history ++ [history_entry status task (L.log l task.msg task.level).1] ∧
      app1.logger = some (L.log l task.msg task.level).2 ∧
      app1.worker = .loop_test ∧
      ConsoleApp.run L status app1
          (List.replicate (if app.run_flag then 3 else 4) ConsoleApp.Action.worker)
        = some app2 ∧
      app2.log_history
        = app1.log_history ++
          [history_entry status next
            (L.log (L.log l task.msg task.level).2 next.msg next.level).1] ∧
      app2.logger = some (L.log (L.log l task.msg task.level).2 next.msg next.level).2 ∧
      app2.log_queue.curr_queue = rest ∧
      app2.worker = .loop_test := by
  obtain ⟨logger, ⟨queue, stopped⟩, history, flag, pc, joinable, type, closer, cerr⟩ := app
  simp only at hl hpc hq
  subst hl hpc hq
  refine ⟨⟨some (L.log l task.msg task.level).2, ⟨next :: rest, stopped⟩,
      history ++ [history_entry status task (L.log l task.msg task.level).1], flag, .loop_test,
      joinable, type, closer,
      if (L.log l task.msg task.level).1 ≠ .NONE then
        cerr ++ [error_report (L.log l task.msg task.level).1]
      else cerr⟩,
    ⟨some (L.log (L.log l task.msg task.level).2 next.msg next.level).2, ⟨rest, stopped⟩,
      history ++ [history_entry status task (L.log l task.msg task.level).1] ++
        [history_entry status next
          (L.log (L.log l task.msg task.level).2 next.msg next.level).1],
      flag, .loop_test, joinable, type, closer,
      if (L.log (L.log l task.msg task.level).2 next.msg next.level).1 ≠ .NONE then
        (if (L.log l task.msg task.level).1 ≠ .NONE then
          cerr ++ [error_report (L.log l task.msg task.level).1]
        else cerr) ++
          [error_report (L.log (L.log l task.msg task.level).2 next.msg next.level).1]
      else
        (if (L.log l task.msg task.level).1 ≠ .NONE then
          cerr ++ [error_report (L.log l task.msg task.level).1]
        else cerr)⟩,
    rfl, rfl, rfl, rfl, ?_, rfl, rfl, rfl, rfl⟩
  cases flag <;>
    simp [ConsoleApp.run, ConsoleApp.step, ConsoleApp.worker_step, ConsoleApp.handle_task,
      ThreadQueue.empty, ThreadQueue.pop_with_wait, List.replicate]

/-- C2 on a sink whose file cannot be opened: both records get FILE_OPEN_FAILED
from the sink and both get their history entry. -/
theorem C2_one_history_entry_whatever_sink_returns_witness :
    ∃ app1 app2 : ConsoleApp FileSink,
      ConsoleApp.worker_step FileSink.asLogger example_status
          ⟨some (example_sink false), ⟨[⟨"second", .ERROR⟩], false⟩, [], true,
            .handle ⟨"first", .INFO⟩, true, "file", .idle, []⟩ = some app1 ∧
      app1.log_history = ["[INFO] first (error)"] ∧
      ConsoleApp.run FileSink.asLogger example_status app1
          (List.replicate 3 ConsoleApp.Action.worker) = some app2 ∧
      app2.log_history = ["[INFO] first (error)", "[ERROR] second (error)"] := by
  obtain ⟨app1, app2, h1, h2, -, -, h5, h6, -, -, -⟩ :=
    C2_one_history_entry_whatever_sink_returns FileSink.asLogger example_status
      ⟨some (example_sink false), ⟨[⟨"second", .ERROR⟩], false⟩, [], true,
        .handle ⟨"first", .INFO⟩, true, "file", .idle, []⟩
      (example_sink false) ⟨"first", .INFO⟩ ⟨"second", .ERROR⟩ [] rfl rfl rfl
  refine ⟨app1, app2, h1, ?_, h5, ?_⟩
  · rw [h2]
    decide
  · rw [h6, h2]
    decide

/-! ## Every record pushed before `close` is called gets its entry -/

namespace ConsoleApp

variable {σ : Type} {L : Logger σ} {status : Log → LoggerError → String}

/-- A push adds the record at the end of what is pending. -/
theorem pending_add_test_msg (app : ConsoleApp σ) (msg : String) (level : LogLevel) :
    (app.add_test_msg msg level).pending = app.pending ++ [⟨msg, level⟩] := by
  obtain ⟨logger, ⟨queue, stopped⟩, history, flag, pc, joinable, type, closer, cerr⟩ := app
  cases pc <;> simp [pending, add_test_msg, ThreadQueue.push]

/-- The bookkeeping survives a push. -/
theorem Accounted.add_test_msg {app : ConsoleApp σ} {pushed : List Log}
    (h : Accounted status app pushed) (msg : String) (level : LogLevel) :
    Accounted status (app.add_test_msg msg level) (pushed ++ [⟨msg, level⟩]) := by
  obtain ⟨handled, errors, hp, hlen, hh⟩ := h
  refine ⟨handled, errors, ?_, hlen, hh⟩
  rw [pending_add_test_msg, hp, List.append_assoc]

/-- The bookkeeping only looks at the worker, the queue content and the history. -/
theorem Accounted.congr {app app1 : ConsoleApp σ} {pushed : List Log}
    (h : Accounted status app pushed) (hp : app1.pending = app.pending)
    (hh : app1.log_history = app.log_history) : Accounted status app1 pushed := by
  obtain ⟨handled, errors, h1, h2, h3⟩ := h
  exact ⟨handled, errors, by rw [hp]; exact h1, h2, by rw [hh]; exact h3⟩

/-- Handling the popped record in the first loop moves it from pending to the
history. -/
theorem Accounted.handle {app app1 : ConsoleApp σ} {pushed : List Log} {task : Log}
    (h : Accounted status app pushed) (hpc : app.worker = .handle task)
    (hs : handle_task L status app task = some app1) :
    Accounted status app1 pushed ∧ app1.worker = .loop_test ∧
      app1.log_queue = app.log_queue ∧ app1.logger.isSome = true ∧
      app1.run_flag = app.run_flag ∧ app1.closer = app.closer ∧
      app1.joinable = app.joinable := by
  obtain ⟨logger, ⟨queue, stopped⟩, history, flag, pc, joinable, type, closer, cerr⟩ := app
  obtain ⟨handled, errors, h1, h2, h3⟩ := h
  simp only at hpc
  subst hpc
  cases logger with
  | none => simp [handle_task] at hs
  | some l =>
    simp only [handle_task, Option.some.injEq] at hs
    subst hs
    refine ⟨⟨handled ++ [task], errors ++ [(L.log l task.msg task.level).1], ?_, ?_, ?_⟩,
      rfl, rfl, rfl, rfl, rfl, rfl⟩
    · simpa [pending] using h1
    · simp [h2]
    · simp only at h3
      simp [List.zipWith_append _ _ _ _ _ h2.symm, h3]

/-- Before `close` is called, every action other than its first statement keeps
the application running and the bookkeeping exact. -/
theorem Running.step_keeps_running {app app1 : ConsoleApp σ} {pushed : List Log}
    (h : Running status app pushed) (a : Action) (ha : a ≠ .close_clear)
    (hs : ConsoleApp.step L status app a = some app1) :
    Running status app1 (pushed ++ submitted [a]) := by
  cases a with
  | add_test_msg msg level =>
    simp only [ConsoleApp.step, Option.some.injEq] at hs
    subst hs
    exact ⟨h.has_logger, h.flag, h.no_close, h.thread, h.pc, h.accounted.add_test_msg msg level⟩
  | close_clear => exact absurd rfl ha
  | close_stop => simp [ConsoleApp.step, h.no_close] at hs
  | close_join => simp [ConsoleApp.step, h.no_close] at hs
  | worker =>
    have hsub : pushed ++ submitted [Action.worker] = pushed := by simp [submitted]
    rw [hsub]
    obtain ⟨hl, hf, hc, hj, hpc, hacc⟩ := h
    rcases hpc with hpc | hpc | ⟨task, hpc⟩
    · simp only [ConsoleApp.step, worker_step, hpc, hf, if_true, Option.some.injEq] at hs
      subst hs
      exact ⟨hl, rfl, hc, hj, Or.inr (Or.inl rfl), hacc.congr (by simp [pending, hpc]) rfl⟩
    · simp only [ConsoleApp.step, worker_step, hpc] at hs
      cases hq : app.log_queue.curr_queue with
      | nil =>
        cases hstop : app.log_queue.is_stop with
        | false => simp [ThreadQueue.pop_with_wait, hq, hstop] at hs
        | true =>
          simp [ThreadQueue.pop_with_wait, hq, hstop] at hs
          subst hs
          exact ⟨hl, hf, hc, hj, Or.inl rfl, hacc.congr (by simp [pending, hpc]) rfl⟩
      | cons x rest =>
        simp [ThreadQueue.pop_with_wait, hq] at hs
        subst hs
        exact ⟨hl, hf, hc, hj, Or.inr (Or.inr ⟨x, rfl⟩),
          hacc.congr (by simp [pending, hpc, hq]) rfl⟩
    · simp only [ConsoleApp.step, worker_step, hpc] at hs
      obtain ⟨h1, h2, -, h4, h5, h6, h7⟩ := Accounted.handle hacc hpc hs
      exact ⟨h4, by rw [h5, hf], by rw [h6, hc], by rw [h7, hj], Or.inl h2, h1⟩

/-- The first statement of `close` on a running application starts the closing
phase. -/
theorem Running.close_starts {app app1 : ConsoleApp σ} {pushed : List Log}
    (h : Running status app pushed)
    (hs : ConsoleApp.step L status app .close_clear = some app1) :
    Closing status app1 pushed := by
  simp only [ConsoleApp.step, h.no_close, if_true, Option.some.injEq] at hs
  subst hs
  obtain ⟨hl, hf, hc, hj, hpc, hacc⟩ := h
  refine ⟨hl, ?_, ?_, ?_, ?_, hacc.congr rfl rfl⟩
  · rcases hpc with hpc | hpc | ⟨task, hpc⟩ <;> simp [hpc]
  · intro task
    rcases hpc with hpc | hpc | ⟨task1, hpc⟩ <;> simp [hpc]
  · rcases hpc with hpc | hpc | ⟨task, hpc⟩ <;> simp [hpc]
  · simp [hj]

/-- Once `close` has been called and as long as nothing is pushed, every action
keeps the bookkeeping exact, the second loop is only entered on an empty queue,
and `close` only returns after the worker has. -/
theorem Closing.step_keeps_closing {app app1 : ConsoleApp σ} {pushed : List Log}
    (h : Closing status app pushed) (a : Action) (ha : submitted [a] = [])
    (hs : ConsoleApp.step L status app a = some app1) : Closing status app1 pushed := by
  obtain ⟨hl, hstart, hnd, hdr, hjoin, hacc⟩ := h
  cases a with
  | add_test_msg msg level => simp [submitted] at ha
  | close_clear =>
    simp only [ConsoleApp.step] at hs
    split at hs
    · simp only [Option.some.injEq] at hs
      subst hs
      exact ⟨hl, hstart, hnd, hdr, fun hx => hjoin (Or.inr (by simpa using hx)),
        hacc.congr rfl rfl⟩
    · simp at hs
  | close_stop =>
    simp only [ConsoleApp.step] at hs
    split at hs
    · simp only [Option.some.injEq] at hs
      subst hs
      exact ⟨hl, hstart, hnd, hdr, fun hx => hjoin (Or.inr (by simpa using hx)),
        hacc.congr rfl rfl⟩
    · simp at hs
  | close_join =>
    simp only [ConsoleApp.step] at hs
    split at hs
    · split at hs
      · rename_i hj
        split at hs
        · rename_i hfin
          simp only [Option.some.injEq] at hs
          subst hs
          exact ⟨hl, hstart, hnd, hdr, fun _ => hfin, hacc.congr rfl rfl⟩
        · simp at hs
      · rename_i hj
        simp only [Option.some.injEq] at hs
        subst hs
        have hfin : app.worker = .finished := hjoin (Or.inr (by simpa using hj))
        exact ⟨hl, hstart, hnd, hdr, fun _ => hfin, hacc.congr rfl rfl⟩
    · simp at hs
  | worker =>
    simp only [ConsoleApp.step, worker_step] at hs
    cases hpc : app.worker with
    | not_started => exact absurd hpc hstart
    | loop_test =>
      simp only [hpc, Option.some.injEq] at hs
      subst hs
      have hno : ¬ (app.closer = .idle ∨ app.joinable = false) := fun hx => by
        have := hjoin hx
        simp [hpc] at this
      refine ⟨hl, ?_, ?_, ?_, fun hx => absurd hx hno, ?_⟩
      · cases app.run_flag <;> simp
      · intro task
        cases app.run_flag <;> simp
      · cases app.run_flag <;> simp
      · refine hacc.congr ?_ rfl
        cases app.run_flag <;> simp [pending, hpc]
    | loop_test_empty =>
      simp only [hpc, Option.some.injEq] at hs
      subst hs
      have hno : ¬ (app.closer = .idle ∨ app.joinable = false) := fun hx => by
        have := hjoin hx
        simp [hpc] at this
      cases hq : app.log_queue.curr_queue with
      | nil =>
        refine ⟨hl, ?_, ?_, ?_, fun hx => absurd hx hno, ?_⟩
        · simp [ThreadQueue.empty, hq]
        · simp [ThreadQueue.empty, hq]
        · intro _
          exact hq
        · refine hacc.congr ?_ rfl
          simp [pending, hpc, ThreadQueue.empty, hq]
      | cons x rest =>
        refine ⟨hl, ?_, ?_, ?_, fun hx => absurd hx hno, ?_⟩
        · simp [ThreadQueue.empty, hq]
        · simp [ThreadQueue.empty, hq]
        · simp [ThreadQueue.empty, hq]
        · refine hacc.congr ?_ rfl
          simp [pending, hpc, ThreadQueue.empty, hq]
    | wait_pop =>
      simp only [hpc] at hs
      have hno : ¬ (app.closer = .idle ∨ app.joinable = false) := fun hx => by
        have := hjoin hx
        simp [hpc] at this
      cases hq : app.log_queue.curr_queue with
      | nil =>
        cases hstop : app.log_queue.is_stop with
        | false => simp [ThreadQueue.pop_with_wait, hq, hstop] at hs
        | true =>
          simp [ThreadQueue.pop_with_wait, hq, hstop] at hs
          subst hs
          exact ⟨hl, by simp, by simp, by simp, fun hx => absurd hx hno,
            hacc.congr (by simp [pending, hpc]) rfl⟩
      | cons x rest =>
        simp [ThreadQueue.pop_with_wait, hq] at hs
        subst hs
        exact ⟨hl, by simp, by simp, by simp, fun hx => absurd hx hno,
          hacc.congr (by simp [pending, hpc, hq]) rfl⟩
    | handle task =>
      simp only [hpc] at hs
      have hno : ¬ (app.closer = .idle ∨ app.joinable = false) := fun hx => by
        have := hjoin hx
        simp [hpc] at this
      obtain ⟨h1, h2, -, h4, -, h6, h7⟩ := Accounted.handle hacc hpc hs
      exact ⟨h4, by simp [h2], by simp [h2], by simp [h2],
        fun hx => absurd (by rw [h6, h7] at hx; exact hx) hno, h1⟩
    | drain_pop =>
      simp only [hpc] at hs
      have hq : app.log_queue.curr_queue = [] := hdr (Or.inl hpc)
      simp [ThreadQueue.pop, hq] at hs
      subst hs
      exact ⟨hl, by simp, by simp, fun _ => hq, fun _ => rfl,
        hacc.congr (by simp [pending, hpc]) rfl⟩
    | drain_handle task => exact absurd hpc (hnd task)
    | finished => simp [hpc] at hs

/-- An execution without `close` keeps the application running. -/
theorem Running.run_keeps_running (acts : List Action) :
    ∀ {app app1 : ConsoleApp σ} {pushed : List Log}, Running status app pushed →
      Action.close_clear ∉ acts → run L status app acts = some app1 →
      Running status app1 (pushed ++ submitted acts) := by
  induction acts with
  | nil =>
    intro app app1 pushed h _ hr
    simp only [run, Option.some.injEq] at hr
    subst hr
    simpa [submitted] using h
  | cons a rest ih =>
    intro app app1 pushed h hno hr
    simp only [run] at hr
    cases hs : ConsoleApp.step L status app a with
    | none => simp [hs] at hr
    | some app2 =>
      simp only [hs] at hr
      have ha : a ≠ .close_clear := fun hx => hno (by simp [hx])
      have hrest : Action.close_clear ∉ rest := fun hx => hno (by simp [hx])
      have h2 := ih (h.step_keeps_running a ha hs) hrest hr
      have hsub : submitted (a :: rest) = submitted [a] ++ submitted rest := by
        cases a <;> simp [submitted]
      rw [hsub, ← List.append_assoc]
      exact h2

/-- An execution without pushes keeps the closing phase. -/
theorem Closing.run_keeps_closing (acts : List Action) :
    ∀ {app app1 : ConsoleApp σ} {pushed : List Log}, Closing status app pushed →
      submitted acts = [] → run L status app acts = some app1 →
      Closing status app1 pushed := by
  induction acts with
  | nil =>
    intro app app1 pushed h _ hr
    simp only [run, Option.some.injEq] at hr
    subst hr
    exact h
  | cons a rest ih =>
    intro app app1 pushed h hno hr
    simp only [run] at hr
    cases hs : ConsoleApp.step L status app a with
    | none => simp [hs] at hr
    | some app2 =>
      simp only [hs] at hr
      have hsub : submitted (a :: rest) = submitted [a] ++ submitted rest := by
        cases a <;> simp [submitted]
      rw [hsub, List.append_eq_nil] at hno
      exact ih (h.step_keeps_closing a hno.1 hs) hno.2 hr

/-- Running an execution in two parts. -/
theorem run_append (acts1 acts2 : List Action) (app : ConsoleApp σ) :
    run L status app (acts1 ++ acts2)
      = (run L status app acts1).bind (fun app1 => run L status app1 acts2) := by
  induction acts1 generalizing app with
  | nil => simp [run]
  | cons a rest ih =>
    simp only [List.cons_append, run]
    cases ConsoleApp.step L status app a with
    | none => simp
    | some app2 => simpa using ih app2

/-- A freshly constructed and started application is running with nothing
pushed. -/
theorem Running.of_init {logger : σ} {created app : ConsoleApp σ}
    (hnew : ConsoleApp.new L (some logger) = some created)
    (hinit : created.init = some (true, app)) : Running status app [] := by
  simp only [ConsoleApp.new, Option.some.injEq] at hnew
  subst hnew
  simp only [ConsoleApp.init, Bool.false_eq_true, if_false, Option.some.injEq,
    Prod.mk.injEq, true_and] at hinit
  subst hinit
  exact ⟨rfl, rfl, rfl, rfl, Or.inl rfl, ⟨[], [], rfl, rfl, rfl⟩⟩

end ConsoleApp

/-- C1, refuted as stated: two executions of a started application in which one
record is submitted while `close()` is in progress, so before it returns.  In
the first the push comes after the worker has left its second loop: when
`close()` has returned the record is still in the queue and the history is
empty.  In the second the push comes between the worker's last test of
`log_queue.empty()` and its second loop: the record is written to the file by
that loop, and the history is empty. -/
theorem C1_record_pushed_during_close_has_no_entry :
    (ConsoleApp.new FileSink.asLogger (some (example_sink true))).bind ConsoleApp.init
      = some (true, example_app) ∧
    (ConsoleApp.run FileSink.asLogger example_status example_app
        [.worker, .close_clear, .close_stop, .worker, .worker, .worker, .worker,
          .add_test_msg "late" .ERROR, .close_join]).map
        (fun app => (app.closer, app.worker, app.log_history, app.log_queue.curr_queue))
      = some (.idle, .finished, [], [⟨"late", .ERROR⟩]) ∧
    (ConsoleApp.run FileSink.asLogger example_status example_app
        [.worker, .close_clear, .close_stop, .worker, .worker, .worker,
          .add_test_msg "late" .ERROR, .worker, .worker, .worker, .close_join]).map
        (fun app => (app.closer, app.worker, app.log_history, app.log_queue.curr_queue,
          app.logger.map (fun sink => sink.disk)))
      = some (.idle, .finished, [], [], some "[t] [ERROR] late\n") := by
  refine ⟨rfl, ?_, ?_⟩ <;> decide

/-- C1 as amended: for every sink and every execution of a constructed and
started application in which all pushes are made before `close()` is called and
`close()` has returned at the end, `log_history` then holds exactly one entry per
submitted record, in the order of the pushes; the queue is empty and the worker
has returned. -/
theorem C1_records_pushed_before_close_have_entries {σ : Type} (L : Logger σ)
    (status : Log → LoggerError → String) (logger : σ) (created app app1 : ConsoleApp σ)
    (before during : List ConsoleApp.Action)
    (hnew : ConsoleApp.new L (some logger) = some created)
    (hinit : created.init = some (true, app))
    (hbefore : ConsoleApp.Action.close_clear ∉ before)
    (hduring : submitted during = [])
    (hrun : ConsoleApp.run L status app (before ++ .close_clear :: during) = some app1)
    (hreturned : app1.closer = .idle) :
    (∃ errors : List LoggerError, errors.length = (submitted before).length ∧
      app1.log_history = List.zipWith (history_entry status) (submitted before) errors) ∧
    app1.get_history = (submitted before).length ∧
    app1.get_queue_size = 0 ∧ app1.worker = .finished := by
  rw [ConsoleApp.run_append] at hrun
  cases hb : ConsoleApp.run L status app before with
  | none => simp [hb] at hrun
  | some app2 =>
    simp only [hb, Option.bind, ConsoleApp.run] at hrun
    cases hc : ConsoleApp.step L status app2 .close_clear with
    | none => simp [hc] at hrun
    | some app3 =>
      simp only [hc] at hrun
      have h2 := (ConsoleApp.Running.of_init hnew hinit).run_keeps_running before hbefore hb
      rw [List.nil_append] at h2
      have h4 := (h2.close_starts hc).run_keeps_closing during hduring hrun
      have hfin : app1.worker = .finished := h4.joined (Or.inl hreturned)
      have hq : app1.log_queue.curr_queue = [] := h4.drained (Or.inr hfin)
      obtain ⟨handled, errors, hp, hlen, hh⟩ := h4.accounted
      have hpend : app1.pending = [] := by simp [ConsoleApp.pending, hfin, hq]
      rw [hpend, List.append_nil] at hp
      subst hp
      refine ⟨⟨errors, hlen, hh⟩, ?_, ?_, hfin⟩
      · simp [ConsoleApp.get_history, hh, hlen]
      · simp [ConsoleApp.get_queue_size, ThreadQueue.size, hq]

/-- C1 as amended, on an execution with two pushes, the second one made while
the worker handles the first, followed by `close()`. -/
theorem C1_records_pushed_before_close_have_entries_witness :
    ∃ app1 : ConsoleApp FileSink,
      ConsoleApp.run FileSink.asLogger example_status example_app
        ([.add_test_msg "a" .INFO, .worker, .worker, .add_test_msg "b" .DEBUG, .worker] ++
          .close_clear :: [.close_stop, .worker, .worker, .worker, .worker, .worker, .worker,
            .worker, .close_join]) = some app1 ∧
      app1.get_history = 2 ∧ app1.get_queue_size = 0 ∧
      app1.log_history = ["[INFO] a (ok)", "[DEBUG] b (ok)"] :=
  ⟨⟨some ⟨⟨"app.txt", ⟨true, false⟩, .INFO⟩, "[t] [INFO] a\n", ⟨"t", true, true⟩⟩,
      ⟨[], true⟩, ["[INFO] a (ok)", "[DEBUG] b (ok)"], false, .finished, false, "file", .idle,
      []⟩,
    rfl,
    (C1_records_pushed_before_close_have_entries FileSink.asLogger example_status
      (example_sink true) _ example_app _
      [.add_test_msg "a" .INFO, .worker, .worker, .add_test_msg "b" .DEBUG, .worker]
      [.close_stop, .worker, .worker, .worker, .worker, .worker, .worker, .worker, .close_join]
      rfl rfl (by decide) rfl rfl rfl).2.1,
    (C1_records_pushed_before_close_have_entries FileSink.asLogger example_status
      (example_sink true) _ example_app _
      [.add_test_msg "a" .INFO, .worker, .worker, .add_test_msg "b" .DEBUG, .worker]
      [.close_stop, .worker, .worker, .worker, .worker, .worker, .worker, .worker, .close_join]
      rfl rfl (by decide) rfl rfl rfl).2.2.1,
    rfl⟩

/-! ## Properties of the queue -/

/-- Pushing a list of items appends them in their order and leaves the stop
flag alone. -/
theorem ThreadQueue.push_all_eq {T : Type} (values : List T) :
    ∀ q : ThreadQueue T, q.push_all values = ⟨q.curr_queue ++ values, q.is_stop⟩ := by
  induction values with
  | nil =>
    intro q
    simp [ThreadQueue.push_all]
  | cons x rest ih =>
    intro q
    have h := ih (q.push x)
    simp only [ThreadQueue.push_all, List.foldl_cons] at h ⊢
    rw [h]
    simp [ThreadQueue.push]

/-- Popping as many times as there are items at the head of the queue returns
these items in their order and leaves the rest. -/
theorem ThreadQueue.pop_many_eq {T : Type} (values : List T) :
    ∀ (later : List T) (stopped : Bool),
      ThreadQueue.pop_many values.length (⟨values ++ later, stopped⟩ : ThreadQueue T)
        = (values.map some, ⟨later, stopped⟩) := by
  induction values with
  | nil =>
    intro later stopped
    simp [ThreadQueue.pop_many]
  | cons x rest ih =>
    intro later stopped
    simp [ThreadQueue.pop_many, ThreadQueue.pop, ih]

/-- C12: `ThreadQueue` is a FIFO.  `push` is a total function that appends the
item at the tail and changes nothing else, so n pushes onto an empty queue
without pops give size n; `pop` on a queue whose oldest item is x returns true
with x and removes only x; `pop` on an empty queue returns false and leaves the
queue unchanged; hence n pops after n pushes return the items in the order of
the pushes and leave the queue empty. -/
theorem C12_thread_queue_is_fifo {T : Type} (q : ThreadQueue T) (x : T) (rest items : List T) :
    (q.push x).curr_queue = q.curr_queue ++ [x] ∧ (q.push x).is_stop = q.is_stop ∧
    ((ThreadQueue.new : ThreadQueue T).push_all items).size = items.length ∧
    (q.curr_queue = x :: rest → q.pop = (some x, { q with curr_queue := rest })) ∧
    (q.curr_queue = [] → q.pop = (none, q)) ∧
    ThreadQueue.pop_many items.length ((ThreadQueue.new : ThreadQueue T).push_all items)
      = (items.map some, ThreadQueue.new) := by
  refine ⟨rfl, rfl, ?_, ?_, ?_, ?_⟩
  · simp [ThreadQueue.push_all_eq, ThreadQueue.new, ThreadQueue.size]
  · intro h
    simp [ThreadQueue.pop, h]
  · intro h
    simp [ThreadQueue.pop, h]
  · rw [ThreadQueue.push_all_eq]
    simpa [ThreadQueue.new] using ThreadQueue.pop_many_eq items [] false

/-- C12 on the five messages of `test_msg_queue`, and on a queue holding two
items. -/
theorem C12_thread_queue_is_fifo_witness :
    ((ThreadQueue.new : ThreadQueue String).push_all
        ["test msg 0", "test msg 1", "test msg 2", "test msg 3", "test msg 4"]).size = 5 ∧
    ThreadQueue.pop (⟨["a", "b"], false⟩ : ThreadQueue String) = (some "a", ⟨["b"], false⟩) ∧
    ThreadQueue.pop (⟨[], false⟩ : ThreadQueue String) = (none, ⟨[], false⟩) :=
  ⟨(C12_thread_queue_is_fifo (⟨["a", "b"], false⟩ : ThreadQueue String) "a" ["b"]
      ["test msg 0", "test msg 1", "test msg 2", "test msg 3", "test msg 4"]).2.2.1,
   (C12_thread_queue_is_fifo (⟨["a", "b"], false⟩ : ThreadQueue String) "a" ["b"]
      []).2.2.2.1 rfl,
   (C12_thread_queue_is_fifo (⟨[], false⟩ : ThreadQueue String) "a" []
      []).2.2.2.2.1 rfl⟩

/-- C13: `pop_with_wait` returns false exactly when the queue it observes is
stopped and empty, and then leaves it unchanged; it stays blocked exactly when
the queue is empty and not stopped; on a non-empty queue, stopped or not, it
returns what `pop` returns, namely true with the head item, which is removed;
this holds for an item pushed after `stop()` too.  `stop()` is idempotent, sets
the flag and keeps the queued items. -/
theorem C13_pop_with_wait_and_stop {T : Type} (q : ThreadQueue T) (x : T) :
    ((∃ q1, q.pop_with_wait = some (none, q1)) ↔ (q.curr_queue = [] ∧ q.is_stop = true)) ∧
    (q.curr_queue = [] → q.is_stop = true → q.pop_with_wait = some (none, q)) ∧
    (q.pop_with_wait = none ↔ (q.curr_queue = [] ∧ q.is_stop = false)) ∧
    (q.curr_queue ≠ [] →
      q.pop_with_wait = some q.pop ∧
      ∃ y rest, q.curr_queue = y :: rest ∧ q.pop = (some y, { q with curr_queue := rest })) ∧
    (q.stop.push x).pop_with_wait = some (q.stop.push x).pop ∧
    q.stop.stop = q.stop ∧ q.stop.curr_queue = q.curr_queue ∧ q.stop.is_stop = true := by
  obtain ⟨queue, stopped⟩ := q
  refine ⟨?_, ?_, ?_, ?_, ?_, rfl, rfl, rfl⟩
  · cases queue <;> cases stopped <;> simp [ThreadQueue.pop_with_wait]
  · intro h1 h2
    simp only at h1 h2
    subst h1 h2
    simp [ThreadQueue.pop_with_wait]
  · cases queue <;> cases stopped <;> simp [ThreadQueue.pop_with_wait]
  · intro h
    cases queue with
    | nil => simp at h
    | cons y rest =>
      refine ⟨?_, y, rest, rfl, rfl⟩
      simp [ThreadQueue.pop_with_wait, ThreadQueue.pop]
  · cases queue <;> simp [ThreadQueue.pop_with_wait, ThreadQueue.pop, ThreadQueue.push,
      ThreadQueue.stop]

/-- C13 on a stopped queue that still holds an item, and on a stopped empty
one. -/
theorem C13_pop_with_wait_and_stop_witness :
    ThreadQueue.pop_with_wait (⟨["left"], true⟩ : ThreadQueue String)
      = some (some "left", ⟨[], true⟩) ∧
    ThreadQueue.pop_with_wait (⟨[], true⟩ : ThreadQueue String) = some (none, ⟨[], true⟩) := by
  refine ⟨?_, ?_⟩
  · have h := (C13_pop_with_wait_and_stop (⟨["left"], true⟩ : ThreadQueue String) "x").2.2.2.1
      (by simp)
    rw [h.1]
    rfl
  · exact (C13_pop_with_wait_and_stop (⟨[], true⟩ : ThreadQueue String) "x").2.1 rfl rfl

/-! ## Further properties of the socket sink and of the command line -/

/-- C11: evaluation at the failing input.  On a new sink `reconnect()` connects
on descriptor 3 and leaves `init_flag` clear (first part).  `init()` then does
not return early: it calls `connect_to_server`, which stores the new descriptor
4 in `sockfd` (second part).  Descriptor 3 was never closed: after the two
calls two descriptors are open and only one is referenced (third part).  A
second `reconnect()` in the place of `init()` closes descriptor 3 first (fourth
part). -/
theorem C11_init_after_reconnect_overwrites_open_descriptor :
    SocketLogger.reconnect ⟨"t", some 3, true, true, true⟩
        (SocketLogger.new "127.0.0.1" 8080 .INFO)
      = ⟨.returned .NONE, ⟨"127.0.0.1", 8080, 3, .INFO, false, false⟩,
          [.socket 3, .connect 3 true]⟩ ∧
    SocketLogger.init ⟨"t", some 4, true, true, true⟩
        ⟨"127.0.0.1", 8080, 3, .INFO, false, false⟩
      = ⟨.returned .NONE, ⟨"127.0.0.1", 8080, 4, .INFO, false, true⟩,
          [.socket 4, .connect 4 true]⟩ ∧
    live_descriptors [] ([.socket 3, .connect 3 true] ++ [.socket 4, .connect 4 true])
      = [4, 3] ∧
    live_descriptors []
        ([.socket 3, .connect 3 true] ++
          (SocketLogger.reconnect ⟨"t", some 4, true, true, true⟩
            ⟨"127.0.0.1", 8080, 3, .INFO, false, false⟩).events)
      = [4] := by
  decide

/-- C19: `parse_log_level` is a total function that maps "DEBUG" and "debug" to
DEBUG, "INFO" and "info" to INFO, "ERROR" and "error" to ERROR, and every other
string to INFO, among them the empty string and mixed-case spellings. -/
theorem C19_parse_log_level_cases (level_str : String) :
    parse_log_level "DEBUG" = .DEBUG ∧ parse_log_level "debug" = .DEBUG ∧
    parse_log_level "INFO" = .INFO ∧ parse_log_level "info" = .INFO ∧
    parse_log_level "ERROR" = .ERROR ∧ parse_log_level "error" = .ERROR ∧
    parse_log_level "" = .INFO ∧ parse_log_level "Debug" = .INFO ∧
    parse_log_level "Error" = .INFO ∧
    (level_str ≠ "DEBUG" → level_str ≠ "debug" → level_str ≠ "ERROR" →
      level_str ≠ "error" → parse_log_level level_str = .INFO) := by
  refine ⟨by decide, by decide, by decide, by decide, by decide, by decide, by decide,
    by decide, by decide, ?_⟩
  intro h1 h2 h3 h4
  simp [parse_log_level, h1, h2, h3, h4]

/-- C19 on a level name the program does not know. -/
theorem C19_parse_log_level_cases_witness : parse_log_level "WARNING" = .INFO :=
  (C19_parse_log_level_cases "WARNING").2.2.2.2.2.2.2.2.2 (by decide) (by decide)
    (by decide) (by decide)

/-! ## Start of the application and the two loops of the worker -/

/-- C16: evaluation at the failing input.  Given a null pointer the constructor
of `ConsoleApp` has no defined result, because it calls `get_type()` through
the pointer, so there is no object on which `init()` could be called and return
false (first and second part); only on an object whose `logger` were null would
`init()` return false and leave the worker unstarted (third part).  Given a
sink, construction succeeds and `init()` returns true with `run_flag` set and
the worker at the start of `log_tasks` (fourth part). -/
theorem C16_null_logger_fails_in_constructor :
    (ConsoleApp.new FileSink.asLogger none).isNone = true ∧
    ((ConsoleApp.new FileSink.asLogger none).bind ConsoleApp.init).isNone = true ∧
    (ConsoleApp.init
        (⟨none, ThreadQueue.new, [], false, .not_started, false, "file", .idle, []⟩ :
          ConsoleApp FileSink)).map
        (fun r => (r.1, r.2.run_flag, r.2.worker, r.2.joinable))
      = some (false, false, .not_started, false) ∧
    ((ConsoleApp.new FileSink.asLogger (some (example_sink true))).bind ConsoleApp.init).map
        (fun r => (r.1, r.2.run_flag, r.2.worker, r.2.joinable))
      = some (true, true, .loop_test, true) := by
  decide

/-- The two loops of the worker call the sink alike and report an error alike,
but only the first one appends a history entry. -/
theorem ConsoleApp.handle_and_drain {σ : Type} (L : Logger σ)
    (status : Log → LoggerError → String) (app : ConsoleApp σ) (l : σ) (task : Log)
    (hl : app.logger = some l) :
    ∃ app1 app2 : ConsoleApp σ,
      ConsoleApp.handle_task L status app task = some app1 ∧
      ConsoleApp.drain_task L app task = some app2 ∧
      app1.logger = app2.logger ∧ app1.cerr = app2.cerr ∧
      app1.log_history = app.log_history ++ [history_entry status task (L.log l task.msg task.level).1] ∧
      app2.log_history = app.log_history := by
  simp [ConsoleApp.handle_task, ConsoleApp.drain_task, hl]

/-- C18: evaluation at the failing input.  A record pushed between the last
`log_queue.empty()` test of the worker and its second loop is popped by that
loop (first part).  The same record is then handled on the same application
state, with a sink whose file cannot be opened, once by the body of the first
loop (second part) and once by the body of the second (third part).  The sink
is left in the same state and the same error line is written, but the first
loop appends the history entry of the record and the second appends nothing. -/
theorem C18_drain_loop_appends_no_history :
    (ConsoleApp.run FileSink.asLogger example_status example_app
        [.worker, .close_clear, .close_stop, .worker, .worker, .worker,
          .add_test_msg "late" .ERROR, .worker]).map (fun app => app.worker)
      = some (.drain_handle ⟨"late", .ERROR⟩) ∧
    (ConsoleApp.handle_task FileSink.asLogger example_status
        ⟨some (example_sink false), ⟨[], true⟩, ["[INFO] old (ok)"], false,
          .handle ⟨"late", .ERROR⟩, true, "file", .flag_cleared, []⟩ ⟨"late", .ERROR⟩).map
        (fun app => (app.logger, app.cerr, app.log_history))
      = some (some ⟨⟨"app.txt", ⟨false, true⟩, .INFO⟩, "", ⟨"t", false, true⟩⟩,
          ["Ошибка: 1"], ["[INFO] old (ok)", "[ERROR] late (error)"]) ∧
    (ConsoleApp.drain_task FileSink.asLogger
        ⟨some (example_sink false), ⟨[], true⟩, ["[INFO] old (ok)"], false,
          .drain_handle ⟨"late", .ERROR⟩, true, "file", .flag_cleared, []⟩ ⟨"late", .ERROR⟩).map
        (fun app => (app.logger, app.cerr, app.log_history))
      = some (some ⟨⟨"app.txt", ⟨false, true⟩, .INFO⟩, "", ⟨"t", false, true⟩⟩,
          ["Ошибка: 1"], ["[INFO] old (ok)"]) := by
  decide

/-! ## What a step of the worker leaves alone -/

namespace ConsoleApp

variable {σ : Type} {L : Logger σ} {status : Log → LoggerError → String}

/-- A step of the worker touches neither the flags nor the progress of `close`;
it is taken by a started worker that has not returned, and when it makes the
worker return nothing is pending. -/
theorem worker_step_frame {app app1 : ConsoleApp σ}
    (hs : worker_step L status app = some app1) :
    app1.closer = app.closer ∧ app1.run_flag = app.run_flag ∧
    app1.joinable = app.joinable ∧ app1.log_queue.is_stop = app.log_queue.is_stop ∧
    app.worker ≠ .finished ∧ app.worker ≠ .not_started ∧ app1.worker ≠ .not_started ∧
    (app1.worker = .finished → app1.pending = []) := by
  obtain ⟨logger, ⟨queue, stopped⟩, history, flag, pc, joinable, type, closer, cerr⟩ := app
  cases pc with
  | not_started => simp [worker_step] at hs
  | loop_test =>
    simp only [worker_step, Option.some.injEq] at hs
    subst hs
    cases flag <;> simp
  | loop_test_empty =>
    simp only [worker_step, Option.some.injEq] at hs
    subst hs
    cases queue <;> simp [ThreadQueue.empty]
  | wait_pop =>
    cases queue with
    | nil =>
      cases stopped with
      | false => simp [worker_step, ThreadQueue.pop_with_wait] at hs
      | true =>
        simp [worker_step, ThreadQueue.pop_with_wait] at hs
        subst hs
        simp
    | cons x rest =>
      simp [worker_step, ThreadQueue.pop_with_wait] at hs
      subst hs
      simp
  | handle task =>
    cases logger with
    | none => simp [worker_step, handle_task] at hs
    | some l =>
      simp only [worker_step, handle_task, Option.some.injEq] at hs
      subst hs
      simp
  | drain_pop =>
    cases queue with
    | nil =>
      simp [worker_step, ThreadQueue.pop] at hs
      subst hs
      simp [pending]
    | cons x rest =>
      simp [worker_step, ThreadQueue.pop] at hs
      subst hs
      simp
  | drain_handle task =>
    cases logger with
    | none => simp [worker_step, drain_task] at hs
    | some l =>
      simp only [worker_step, drain_task, Option.some.injEq] at hs
      subst hs
      simp
  | finished => simp [worker_step] at hs

/-- Passing one more record to the sink. -/
theorem deliver_append_one (sink : σ) (handled : List Log) (task : Log) :
    deliver L sink (handled ++ [task])
      = (L.log (deliver L sink handled) task.msg task.level).2 := by
  simp [deliver, List.foldl_append]

/-- Every action keeps the account of what the sink has received: in both loops
the worker passes the record it has popped to the sink, and nothing else
reaches the sink or leaves the queue. -/
theorem Delivered.step_keeps_delivered {sink : σ} {app app1 : ConsoleApp σ}
    {pushed : List Log} (h : Delivered L sink app pushed) (a : Action)
    (hs : ConsoleApp.step L status app a = some app1) :
    Delivered L sink app1 (pushed ++ submitted [a]) := by
  obtain ⟨handled, hp, hl⟩ := h
  cases a with
  | add_test_msg msg level =>
    simp only [ConsoleApp.step, Option.some.injEq] at hs
    subst hs
    refine ⟨handled, ?_, hl⟩
    rw [pending_add_test_msg, hp, List.append_assoc]
    rfl
  | close_clear =>
    simp only [ConsoleApp.step] at hs
    split at hs
    · simp only [Option.some.injEq] at hs
      subst hs
      exact ⟨handled, by simpa [submitted] using hp, hl⟩
    · simp at hs
  | close_stop =>
    simp only [ConsoleApp.step] at hs
    split at hs
    · simp only [Option.some.injEq] at hs
      subst hs
      exact ⟨handled, by simpa [submitted] using hp, hl⟩
    · simp at hs
  | close_join =>
    simp only [ConsoleApp.step] at hs
    split at hs
    · split at hs
      · split at hs
        · simp only [Option.some.injEq] at hs
          subst hs
          exact ⟨handled, by simpa [submitted] using hp, hl⟩
        · simp at hs
      · simp only [Option.some.injEq] at hs
        subst hs
        exact ⟨handled, by simpa [submitted] using hp, hl⟩
    · simp at hs
  | worker =>
    have hsub : pushed ++ submitted [Action.worker] = pushed := by simp [submitted]
    rw [hsub]
    obtain ⟨logger, ⟨queue, stopped⟩, history, flag, pc, joinable, type, closer, cerr⟩ := app
    simp only at hl
    subst hl
    cases pc with
    | not_started => simp [ConsoleApp.step, worker_step] at hs
    | loop_test =>
      simp only [ConsoleApp.step, worker_step, Option.some.injEq] at hs
      subst hs
      refine ⟨handled, ?_, rfl⟩
      cases flag <;> simpa [pending] using hp
    | loop_test_empty =>
      simp only [ConsoleApp.step, worker_step, Option.some.injEq] at hs
      subst hs
      refine ⟨handled, ?_, rfl⟩
      cases queue <;> simpa [pending, ThreadQueue.empty] using hp
    | wait_pop =>
      cases queue with
      | nil =>
        cases stopped with
        | false => simp [ConsoleApp.step, worker_step, ThreadQueue.pop_with_wait] at hs
        | true =>
          simp [ConsoleApp.step, worker_step, ThreadQueue.pop_with_wait] at hs
          subst hs
          exact ⟨handled, by simpa [pending] using hp, rfl⟩
      | cons x rest =>
        simp [ConsoleApp.step, worker_step, ThreadQueue.pop_with_wait] at hs
        subst hs
        exact ⟨handled, by simpa [pending] using hp, rfl⟩
    | handle task =>
      simp only [ConsoleApp.step, worker_step, handle_task, Option.some.injEq] at hs
      subst hs
      refine ⟨handled ++ [task], by simpa [pending] using hp, ?_⟩
      simp [deliver_append_one]
    | drain_pop =>
      cases queue with
      | nil =>
        simp [ConsoleApp.step, worker_step, ThreadQueue.pop] at hs
        subst hs
        exact ⟨handled, by simpa [pending] using hp, rfl⟩
      | cons x rest =>
        simp [ConsoleApp.step, worker_step, ThreadQueue.pop] at hs
        subst hs
        exact ⟨handled, by simpa [pending] using hp, rfl⟩
    | drain_handle task =>
      simp only [ConsoleApp.step, worker_step, drain_task, Option.some.injEq] at hs
      subst hs
      refine ⟨handled ++ [task], by simpa [pending] using hp, ?_⟩
      simp [deliver_append_one]
    | finished => simp [ConsoleApp.step, worker_step] at hs

/-- The records submitted by two executions in a row. -/
theorem submitted_append (acts1 acts2 : List Action) :
    submitted (acts1 ++ acts2) = submitted acts1 ++ submitted acts2 := by
  induction acts1 with
  | nil => simp [submitted]
  | cons a rest ih => cases a <;> simp [submitted, ih]

/-- An execution keeps the account of what the sink has received. -/
theorem Delivered.run_keeps_delivered {sink : σ} (acts : List Action) :
    ∀ {app app1 : ConsoleApp σ} {pushed : List Log}, Delivered L sink app pushed →
      run L status app acts = some app1 →
      Delivered L sink app1 (pushed ++ submitted acts) := by
  induction acts with
  | nil =>
    intro app app1 pushed h hr
    simp only [run, Option.some.injEq] at hr
    subst hr
    simpa [submitted] using h
  | cons a rest ih =>
    intro app app1 pushed h hr
    simp only [run] at hr
    cases hs : ConsoleApp.step L status app a with
    | none => simp [hs] at hr
    | some app2 =>
      simp only [hs] at hr
      have h2 := ih (h.step_keeps_delivered a hs) hr
      have hsub : submitted (a :: rest) = submitted [a] ++ submitted rest :=
        submitted_append [a] rest
      rw [hsub, ← List.append_assoc]
      exact h2

/-- Every step other than one of the worker leaves the worker and what is
pending alone, up to the record an `add_test_msg` appends. -/
theorem step_other_frame {app app1 : ConsoleApp σ} (a : Action) (ha : a ≠ .worker)
    (hs : ConsoleApp.step L status app a = some app1) :
    app1.worker = app.worker ∧ app1.pending = app.pending ++ submitted [a] := by
  cases a with
  | add_test_msg msg level =>
    simp only [ConsoleApp.step, Option.some.injEq] at hs
    subst hs
    exact ⟨rfl, pending_add_test_msg app msg level⟩
  | close_clear =>
    simp only [ConsoleApp.step] at hs
    split at hs
    · simp only [Option.some.injEq] at hs
      subst hs
      exact ⟨rfl, by simp [submitted, pending]⟩
    · simp at hs
  | close_stop =>
    simp only [ConsoleApp.step] at hs
    split at hs
    · simp only [Option.some.injEq] at hs
      subst hs
      exact ⟨rfl, by simp [submitted, pending, ThreadQueue.stop]⟩
    · simp at hs
  | close_join =>
    simp only [ConsoleApp.step] at hs
    split at hs
    · split at hs
      · split at hs
        · simp only [Option.some.injEq] at hs
          subst hs
          exact ⟨rfl, by simp [submitted, pending]⟩
        · simp at hs
      · simp only [Option.some.injEq] at hs
        subst hs
        exact ⟨rfl, by simp [submitted, pending]⟩
    · simp at hs
  | worker => exact absurd rfl ha

/-- From the first call of `close` on, every action, pushes included, keeps
that `close` returns only after the worker has, and that the worker returns
only when the records queued at that call are no longer pending. -/
theorem Stopping.step_keeps_stopping {queued : List Log} {app app1 : ConsoleApp σ}
    {pushed : List Log} (h : Stopping queued app pushed) (a : Action)
    (hs : ConsoleApp.step L status app a = some app1) :
    Stopping queued app1 (pushed ++ submitted [a]) := by
  obtain ⟨hstart, hjoin, ⟨later, hfirst⟩, hdone⟩ := h
  have hfirst1 : ∃ later1 : List Log, pushed ++ submitted [a] = queued ++ later1 :=
    ⟨later ++ submitted [a], by rw [hfirst, List.append_assoc]⟩
  by_cases ha : a = .worker
  · subst ha
    obtain ⟨hc, -, hj, -, hnf, -, hns, hpend⟩ := worker_step_frame hs
    have hno : ¬ (app.closer = .idle ∨ app.joinable = false) := fun hx => hnf (hjoin hx)
    refine ⟨hns, fun hx => absurd (by rw [hc, hj] at hx; exact hx) hno, hfirst1, ?_⟩
    intro hfin
    refine ⟨later, ?_⟩
    rw [hpend hfin, List.append_nil]
    simp [submitted, hfirst]
  · obtain ⟨hw, hp⟩ := step_other_frame a ha hs
    refine ⟨by rw [hw]; exact hstart, ?_, hfirst1, ?_⟩
    · intro hx
      rw [hw]
      cases a with
      | add_test_msg msg level =>
        simp only [ConsoleApp.step, Option.some.injEq] at hs
        subst hs
        exact hjoin hx
      | close_clear =>
        simp only [ConsoleApp.step] at hs
        split at hs
        · simp only [Option.some.injEq] at hs
          subst hs
          exact hjoin (Or.inr (by simpa using hx))
        · simp at hs
      | close_stop =>
        simp only [ConsoleApp.step] at hs
        split at hs
        · simp only [Option.some.injEq] at hs
          subst hs
          exact hjoin (Or.inr (by simpa using hx))
        · simp at hs
      | close_join =>
        simp only [ConsoleApp.step] at hs
        split at hs
        · split at hs
          · split at hs
            · rename_i hfin
              exact hfin
            · simp at hs
          · rename_i hj
            exact hjoin (Or.inr (by simpa using hj))
        · simp at hs
      | worker => exact absurd rfl ha
    · intro hfin
      rw [hw] at hfin
      obtain ⟨more, hm⟩ := hdone hfin
      exact ⟨more, by rw [hp, hm]; simp [List.append_assoc]⟩

/-- An execution after the first call of `close` keeps `Stopping`. -/
theorem Stopping.run_keeps_stopping {queued : List Log} (acts : List Action) :
    ∀ {app app1 : ConsoleApp σ} {pushed : List Log}, Stopping queued app pushed →
      run L status app acts = some app1 →
      Stopping queued app1 (pushed ++ submitted acts) := by
  induction acts with
  | nil =>
    intro app app1 pushed h hr
    simp only [run, Option.some.injEq] at hr
    subst hr
    simpa [submitted] using h
  | cons a rest ih =>
    intro app app1 pushed h hr
    simp only [run] at hr
    cases hs : ConsoleApp.step L status app a with
    | none => simp [hs] at hr
    | some app2 =>
      simp only [hs] at hr
      have h2 := ih (h.step_keeps_stopping a hs) hr
      have hsub : submitted (a :: rest) = submitted [a] ++ submitted rest :=
        submitted_append [a] rest
      rw [hsub, ← List.append_assoc]
      exact h2

/-- The first statement of `close` on a running application: from here on
`Stopping` holds for the records pushed so far. -/
theorem Running.stopping_starts {app app1 : ConsoleApp σ} {pushed : List Log}
    (h : Running status app pushed)
    (hs : ConsoleApp.step L status app .close_clear = some app1) :
    Stopping pushed app1 pushed := by
  simp only [ConsoleApp.step, h.no_close, if_true, Option.some.injEq] at hs
  subst hs
  obtain ⟨hl, hf, hc, hj, hpc, hacc⟩ := h
  refine ⟨?_, ?_, ⟨[], by simp⟩, ?_⟩
  · rcases hpc with hpc | hpc | ⟨task, hpc⟩ <;> simp [hpc]
  · simp [hj]
  · rcases hpc with hpc | hpc | ⟨task, hpc⟩ <;> simp [hpc]

/-- A freshly constructed and started application has passed nothing to its
sink. -/
theorem Delivered.init_delivers_nothing {logger : σ} {created app : ConsoleApp σ}
    (hnew : ConsoleApp.new L (some logger) = some created)
    (hinit : created.init = some (true, app)) : Delivered L logger app [] := by
  simp only [ConsoleApp.new, Option.some.injEq] at hnew
  subst hnew
  simp only [ConsoleApp.init, Bool.false_eq_true, if_false, Option.some.injEq,
    Prod.mk.injEq, true_and] at hinit
  subst hinit
  exact ⟨[], rfl, rfl⟩

/-- When `close` has returned, the worker has returned, and the sink has
received, in the order of the pushes, every record pushed before `close` was
called, followed by those of the records pushed later that are no longer in the
queue. -/
theorem sink_after_close {logger : σ} {created app app1 : ConsoleApp σ}
    {before during : List Action}
    (hnew : ConsoleApp.new L (some logger) = some created)
    (hinit : created.init = some (true, app))
    (hbefore : Action.close_clear ∉ before)
    (hrun : run L status app (before ++ .close_clear :: during) = some app1)
    (hreturned : app1.closer = .idle) :
    app1.worker = .finished ∧
    ∃ more : List Log, more ++ app1.log_queue.curr_queue = submitted during ∧
      app1.logger = some (deliver L (deliver L logger (submitted before)) more) := by
  have hd := (Delivered.init_delivers_nothing hnew hinit).run_keeps_delivered
    (before ++ .close_clear :: during) hrun
  rw [run_append] at hrun
  cases hb : run L status app before with
  | none => simp [hb] at hrun
  | some app2 =>
    simp only [hb, Option.bind, run] at hrun
    cases hc : ConsoleApp.step L status app2 .close_clear with
    | none => simp [hc] at hrun
    | some app3 =>
      simp only [hc] at hrun
      have h2 := (Running.of_init hnew hinit).run_keeps_running before
        hbefore hb
      rw [List.nil_append] at h2
      have h4 := (h2.stopping_starts hc).run_keeps_stopping during hrun
      have hfin : app1.worker = .finished := h4.joined (Or.inl hreturned)
      refine ⟨hfin, ?_⟩
      obtain ⟨more, hm⟩ := h4.queued_done hfin
      obtain ⟨handled, hp, hl⟩ := hd
      have hpend : app1.pending = app1.log_queue.curr_queue := by simp [pending, hfin]
      have hsub : submitted (before ++ Action.close_clear :: during)
          = submitted before ++ submitted during := by
        rw [submitted_append]
        rfl
      rw [List.nil_append, hsub] at hp
      have hh : handled = submitted before ++ more := by
        have : handled ++ app1.pending = (submitted before ++ more) ++ app1.pending := by
          rw [← hp, hm]
        exact List.append_cancel_right this
      refine ⟨more, ?_, ?_⟩
      · rw [hpend] at hm
        rw [List.append_assoc] at hm
        exact (List.append_cancel_left hm).symm
      · rw [hl, hh]
        simp [deliver, List.foldl_append]

/-- When `close` has returned and nothing was pushed since it was called, the
history has one entry per record pushed, in the order of the pushes, and the
queue is empty. -/
theorem history_after_close {logger : σ} {created app app1 : ConsoleApp σ}
    {before during : List Action}
    (hnew : ConsoleApp.new L (some logger) = some created)
    (hinit : created.init = some (true, app))
    (hbefore : Action.close_clear ∉ before) (hduring : submitted during = [])
    (hrun : run L status app (before ++ .close_clear :: during) = some app1)
    (hreturned : app1.closer = .idle) :
    app1.log_queue.curr_queue = [] ∧
    ∃ errors : List LoggerError, errors.length = (submitted before).length ∧
      app1.log_history = List.zipWith (history_entry status) (submitted before) errors := by
  rw [run_append] at hrun
  cases hb : run L status app before with
  | none => simp [hb] at hrun
  | some app2 =>
    simp only [hb, Option.bind, run] at hrun
    cases hc : ConsoleApp.step L status app2 .close_clear with
    | none => simp [hc] at hrun
    | some app3 =>
      simp only [hc] at hrun
      have h2 := (Running.of_init hnew hinit).run_keeps_running before
        hbefore hb
      rw [List.nil_append] at h2
      have h4 := (h2.close_starts hc).run_keeps_closing during hduring hrun
      have hfin : app1.worker = .finished := h4.joined (Or.inl hreturned)
      have hq : app1.log_queue.curr_queue = [] := h4.drained (Or.inr hfin)
      obtain ⟨handled, errors, hp, hlen, hh⟩ := h4.accounted
      have hpend : app1.pending = [] := by simp [pending, hfin, hq]
      rw [hpend, List.append_nil] at hp
      subst hp
      exact ⟨hq, errors, hlen, hh⟩

end ConsoleApp

/-- C15, refuted as stated: an execution of a started application with one
record queued when `close()` is called.  The worker passes that record to the
sink and returns; another thread then submits a record, and `close()` returns.
After it has returned the worker has finished and the file holds the line of
the first record, but `get_queue_size()` is 1, not 0. -/
theorem C15_queue_not_empty_after_close :
    (ConsoleApp.run FileSink.asLogger example_status example_app
        [.add_test_msg "queued" .INFO, .close_clear, .close_stop, .worker, .worker, .worker,
          .worker, .worker, .worker, .worker, .add_test_msg "late" .INFO, .close_join]).map
        (fun app => (app.closer, app.worker, app.get_queue_size,
          app.logger.map (fun sink => sink.disk)))
      = some (.idle, .finished, 1, some "[t] [INFO] queued\n") := by
  decide

/-- C15 as amended: for every sink and every execution of a constructed and
started application that ends with `close()` returned, the worker has returned
by then and the sink has received, one `Logger::log` call each and in the order
of the pushes, every record submitted before `close()` was called, so in
particular those still queued at that moment (followed by those of the records
pushed during `close()` that the worker still found; the others are what the
queue holds).  When nothing is pushed once `close()` has been called,
`get_queue_size()` is 0 after it returns and the sink has received exactly the
records submitted before. -/
theorem C15_close_returns_after_draining {σ : Type} (L : Logger σ)
    (status : Log → LoggerError → String) (logger : σ) (created app app1 : ConsoleApp σ)
    (before during : List ConsoleApp.Action)
    (hnew : ConsoleApp.new L (some logger) = some created)
    (hinit : created.init = some (true, app))
    (hbefore : ConsoleApp.Action.close_clear ∉ before)
    (hrun : ConsoleApp.run L status app (before ++ .close_clear :: during) = some app1)
    (hreturned : app1.closer = .idle) :
    app1.worker = .finished ∧
    (∃ more : List Log, more ++ app1.log_queue.curr_queue = submitted during ∧
      app1.logger = some (deliver L (deliver L logger (submitted before)) more)) ∧
    (submitted during = [] →
      app1.get_queue_size = 0 ∧ app1.logger = some (deliver L logger (submitted before))) := by
  obtain ⟨hfin, more, hm, hl⟩ := ConsoleApp.sink_after_close hnew hinit hbefore hrun hreturned
  refine ⟨hfin, ⟨more, hm, hl⟩, ?_⟩
  intro hduring
  rw [hduring, List.append_eq_nil] at hm
  obtain ⟨hmore, hq⟩ := hm
  subst hmore
  exact ⟨by simp [ConsoleApp.get_queue_size, ThreadQueue.size, hq], by simpa [deliver] using hl⟩

/-- C15 as amended, on the three records of `test_app_close`, all still queued
when `close()` is called: the file holds their three lines when it returns. -/
theorem C15_close_returns_after_draining_witness :
    ∃ app1 : ConsoleApp FileSink,
      ConsoleApp.run FileSink.asLogger example_status example_app
        ([.add_test_msg "close test 0" .INFO, .add_test_msg "close test 1" .INFO,
            .add_test_msg "close test 2" .INFO] ++
          .close_clear :: [.close_stop, .worker, .worker, .worker, .worker, .worker, .worker,
            .worker, .worker, .worker, .worker, .worker, .worker, .worker, .worker, .worker,
            .close_join]) = some app1 ∧
      app1.get_queue_size = 0 ∧ app1.worker = .finished ∧
      app1.logger.map (fun sink => sink.disk)
        = some "[t] [INFO] close test 0\n[t] [INFO] close test 1\n[t] [INFO] close test 2\n" :=
  ⟨⟨some ⟨⟨"app.txt", ⟨true, false⟩, .INFO⟩,
        "[t] [INFO] close test 0\n[t] [INFO] close test 1\n[t] [INFO] close test 2\n",
        ⟨"t", true, true⟩⟩,
      ⟨[], true⟩,
      ["[INFO] close test 0 (ok)", "[INFO] close test 1 (ok)", "[INFO] close test 2 (ok)"],
      false, .finished, false, "file", .idle, []⟩,
    rfl,
    ((C15_close_returns_after_draining FileSink.asLogger example_status (example_sink true) _
      example_app _
      [.add_test_msg "close test 0" .INFO, .add_test_msg "close test 1" .INFO,
        .add_test_msg "close test 2" .INFO]
      [.close_stop, .worker, .worker, .worker, .worker, .worker, .worker,
        .worker, .worker, .worker, .worker, .worker, .worker, .worker, .worker, .worker,
        .close_join]
      rfl rfl (by decide) rfl rfl).2.2 rfl).1,
    (C15_close_returns_after_draining FileSink.asLogger example_status (example_sink true) _
      example_app _
      [.add_test_msg "close test 0" .INFO, .add_test_msg "close test 1" .INFO,
        .add_test_msg "close test 2" .INFO]
      [.close_stop, .worker, .worker, .worker, .worker, .worker, .worker,
        .worker, .worker, .worker, .worker, .worker, .worker, .worker, .worker, .worker,
        .close_join]
      rfl rfl (by decide) rfl rfl).1,
    rfl⟩

/-! ## Closing twice -/

namespace ConsoleApp

variable {σ : Type} {L : Logger σ} {status : Log → LoggerError → String}

/-- Every action keeps the order of the statements of `close`. -/
theorem CloseOrder.step_keeps_order {app app1 : ConsoleApp σ} (h : CloseOrder app)
    (a : Action) (hs : ConsoleApp.step L status app a = some app1) : CloseOrder app1 := by
  obtain ⟨hclear, hstop, hjoin⟩ := h
  cases a with
  | add_test_msg msg level =>
    simp only [ConsoleApp.step, Option.some.injEq] at hs
    subst hs
    exact ⟨hclear, hstop, hjoin⟩
  | close_clear =>
    simp only [ConsoleApp.step] at hs
    split at hs
    · simp only [Option.some.injEq] at hs
      subst hs
      exact ⟨fun _ => rfl, fun hx => by simp at hx,
        fun hx => ⟨(hjoin hx).1, rfl, (hjoin hx).2.2⟩⟩
    · simp at hs
  | close_stop =>
    simp only [ConsoleApp.step] at hs
    split at hs
    · rename_i hc
      simp only [Option.some.injEq] at hs
      subst hs
      have hflag : app.run_flag = false := hclear (by simp [hc])
      exact ⟨fun _ => hflag, fun _ => rfl, fun hx => ⟨(hjoin hx).1, hflag, rfl⟩⟩
    · simp at hs
  | close_join =>
    simp only [ConsoleApp.step] at hs
    split at hs
    · rename_i hc
      have hflag : app.run_flag = false := hclear (by simp [hc])
      have hstopped : app.log_queue.is_stop = true := hstop hc
      split at hs
      · split at hs
        · rename_i hfin
          simp only [Option.some.injEq] at hs
          subst hs
          exact ⟨fun hx => by simp at hx, fun hx => by simp at hx,
            fun _ => ⟨hfin, hflag, hstopped⟩⟩
        · simp at hs
      · simp only [Option.some.injEq] at hs
        subst hs
        exact ⟨fun hx => by simp at hx, fun hx => by simp at hx, hjoin⟩
    · simp at hs
  | worker =>
    obtain ⟨hc, hf, hj, hst, hnf, -, -, -⟩ :=
      worker_step_frame hs
    refine ⟨by rw [hc, hf]; exact hclear, by rw [hc, hst]; exact hstop, ?_⟩
    intro hx
    rw [hj] at hx
    exact absurd (hjoin hx).1 hnf

/-- An execution keeps the order of the statements of `close`. -/
theorem CloseOrder.run_keeps_order (acts : List Action) :
    ∀ {app app1 : ConsoleApp σ}, CloseOrder app → run L status app acts = some app1 →
      CloseOrder app1 := by
  induction acts with
  | nil =>
    intro app app1 h hr
    simp only [run, Option.some.injEq] at hr
    subst hr
    exact h
  | cons a rest ih =>
    intro app app1 h hr
    simp only [run] at hr
    cases hs : ConsoleApp.step L status app a with
    | none => simp [hs] at hr
    | some app2 =>
      simp only [hs] at hr
      exact ih (h.step_keeps_order a hs) hr

/-- A freshly constructed and started application has no `close` in progress
and a joinable worker. -/
theorem CloseOrder.init_has_no_close {logger : σ} {created app : ConsoleApp σ}
    (hnew : ConsoleApp.new L (some logger) = some created)
    (hinit : created.init = some (true, app)) : CloseOrder app := by
  simp only [ConsoleApp.new, Option.some.injEq] at hnew
  subst hnew
  simp only [ConsoleApp.init, Bool.false_eq_true, if_false, Option.some.injEq,
    Prod.mk.injEq, true_and] at hinit
  subst hinit
  exact ⟨fun hx => by simp at hx, fun hx => by simp at hx, fun hx => by simp at hx⟩

end ConsoleApp

/-- C14: for every sink and every execution of a constructed and started
application that ends with a call of `close()` returning, the state then has
`run_flag` false, the queue stopped and the worker returned and joined; a second
call of `close()` runs its three statements one after the other without waiting
for any other action and ends in exactly the same state (same history, same
sink, same queue), and the worker can take no step, so nothing is processed
again. -/
theorem C14_close_is_idempotent {σ : Type} (L : Logger σ)
    (status : Log → LoggerError → String) (logger : σ) (created app app1 : ConsoleApp σ)
    (acts : List ConsoleApp.Action)
    (hnew : ConsoleApp.new L (some logger) = some created)
    (hinit : created.init = some (true, app))
    (hrun : ConsoleApp.run L status app (acts ++ [.close_join]) = some app1) :
    ConsoleApp.run L status app1 [.close_clear, .close_stop, .close_join] = some app1 ∧
    app1.run_flag = false ∧ app1.log_queue.is_stopped = true ∧ app1.joinable = false ∧
    app1.worker = .finished ∧ app1.closer = .idle ∧
    ConsoleApp.worker_step L status app1 = none := by
  rw [ConsoleApp.run_append] at hrun
  cases hb : ConsoleApp.run L status app acts with
  | none => simp [hb] at hrun
  | some app2 =>
    simp only [hb, Option.bind, ConsoleApp.run] at hrun
    have h2 := (ConsoleApp.CloseOrder.init_has_no_close hnew hinit).run_keeps_order acts hb
    cases hs : ConsoleApp.step L status app2 .close_join with
    | none => simp [hs] at hrun
    | some app3 =>
      simp only [hs, Option.some.injEq] at hrun
      subst hrun
      have h3 := h2.step_keeps_order .close_join hs
      have hfacts : app3.closer = .idle ∧ app3.joinable = false := by
        simp only [ConsoleApp.step] at hs
        split at hs
        · split at hs
          · split at hs
            · simp only [Option.some.injEq] at hs
              subst hs
              exact ⟨rfl, rfl⟩
            · simp at hs
          · rename_i hj
            simp only [Option.some.injEq] at hs
            subst hs
            exact ⟨rfl, by simpa using hj⟩
        · simp at hs
      obtain ⟨hidle, hjoin⟩ := hfacts
      obtain ⟨hfin, hflag, hstop⟩ := h3.joined hjoin
      obtain ⟨sink, ⟨queue, stopped⟩, history, flag, pc, joinable, type, closer, cerr⟩ := app3
      simp only at hidle hjoin hfin hflag hstop
      subst hidle hjoin hfin hflag hstop
      refine ⟨?_, rfl, rfl, rfl, rfl, rfl, rfl⟩
      simp [ConsoleApp.run, ConsoleApp.step, ThreadQueue.stop]

/-- C14 on an execution with one record, closed once: closing again changes
nothing. -/
theorem C14_close_is_idempotent_witness :
    ∃ app1 : ConsoleApp FileSink,
      ConsoleApp.run FileSink.asLogger example_status example_app
        ([.add_test_msg "a" .INFO, .close_clear, .close_stop, .worker, .worker, .worker,
            .worker, .worker, .worker, .worker] ++ [.close_join]) = some app1 ∧
      ConsoleApp.run FileSink.asLogger example_status app1
        [.close_clear, .close_stop, .close_join] = some app1 ∧
      app1.log_history = ["[INFO] a (ok)"] :=
  ⟨⟨some ⟨⟨"app.txt", ⟨true, false⟩, .INFO⟩, "[t] [INFO] a\n", ⟨"t", true, true⟩⟩,
      ⟨[], true⟩, ["[INFO] a (ok)"], false, .finished, false, "file", .idle, []⟩,
    rfl,
    (C14_close_is_idempotent FileSink.asLogger example_status (example_sink true) _
      example_app _
      [.add_test_msg "a" .INFO, .close_clear, .close_stop, .worker, .worker, .worker,
        .worker, .worker, .worker, .worker]
      rfl rfl rfl).1,
    rfl⟩

/-! ## Several producers -/

/-- The records of N threads with M records each are N * M records. -/
theorem length_flatten_of_equal_lengths (threads : List (List Log)) (M : Nat)
    (hM : ∀ t ∈ threads, t.length = M) : threads.flatten.length = threads.length * M := by
  induction threads with
  | nil => simp
  | cons t rest ih =>
    have h1 : t.length = M := hM t (by simp)
    have h2 := ih (fun u hu => hM u (by simp [hu]))
    simp [h1, h2, Nat.add_mul, Nat.add_comm]

/-- A usable file sink that is passed accepted records, in any order, ends with
one line per record appended to its file, in that order. -/
theorem FileSink.deliver_accepted (records : List Log) :
    ∀ sink : FileSink, (∀ r ∈ records, ¬ r.level < sink.logger.log_level) →
      (sink.logger.log_file.is_open = false → sink.env.open_ok = true) →
      (sink.logger.log_file.is_open = true → sink.logger.log_file.fail = false) →
      sink.env.write_ok = true →
      (deliver FileSink.asLogger sink records).disk
        = append_lines sink.env.now sink.disk records := by
  induction records with
  | nil =>
    intro sink _ _ _ _
    rfl
  | cons r rest ih =>
    intro sink haccept hopen hgood hwrite
    have hr : ¬ r.level < sink.logger.log_level := haccept r (by simp)
    have hlog := FileLogger.log_written sink.env sink.logger sink.disk r.msg r.level hr hopen
      hgood hwrite
    have hstep : (FileSink.asLogger.log sink r.msg r.level).2
        = ⟨{ sink.logger with log_file := ⟨true, false⟩ },
            sink.disk ++ formatted_line sink.env.now r, sink.env⟩ := by
      simp only [FileSink.asLogger, hlog, formatted_line, String.append_assoc]
    have h := ih ⟨{ sink.logger with log_file := ⟨true, false⟩ },
        sink.disk ++ formatted_line sink.env.now r, sink.env⟩
      (fun u hu => haccept u (by simp [hu])) (by simp) (by simp) hwrite
    simp only [deliver, List.foldl_cons, append_lines] at h ⊢
    rw [hstep]
    exact h

/-- C17: N producer threads submit M records each, all at or above the threshold
of a usable file sink; the pushes take effect in some order, which is a
rearrangement of all the records.  When `close()` has returned (nothing being
pushed after it was called) the history has exactly N * M entries, the queue is
empty, and the file has received exactly one line per record, N * M lines, in
the order of the pushes: no record is lost or duplicated.  The same holds for N
threads calling `FileLogger::log` directly, whose calls take effect one at a time
in some order. -/
theorem C17_concurrent_producers_lose_nothing (status : Log → LoggerError → String)
    (sink : FileSink) (threads : List (List Log)) (N M : Nat)
    (created app app1 : ConsoleApp FileSink) (before during : List ConsoleApp.Action)
    (order : List Log)
    (hN : threads.length = N) (hM : ∀ t ∈ threads, t.length = M)
    (hlevel : ∀ t ∈ threads, ∀ r ∈ t, ¬ r.level < sink.logger.log_level)
    (hopen : sink.logger.log_file.is_open = false → sink.env.open_ok = true)
    (hgood : sink.logger.log_file.is_open = true → sink.logger.log_file.fail = false)
    (hwrite : sink.env.write_ok = true)
    (hnew : ConsoleApp.new FileSink.asLogger (some sink) = some created)
    (hinit : created.init = some (true, app))
    (hbefore : ConsoleApp.Action.close_clear ∉ before)
    (hduring : submitted during = [])
    (hpushes : List.Perm (submitted before) threads.flatten)
    (hrun : ConsoleApp.run FileSink.asLogger status app (before ++ .close_clear :: during)
      = some app1)
    (hreturned : app1.closer = .idle)
    (horder : List.Perm order threads.flatten) :
    app1.get_history = N * M ∧ app1.get_queue_size = 0 ∧
    (submitted before).length = N * M ∧
    app1.logger.map (fun s => s.disk)
      = some (append_lines sink.env.now sink.disk (submitted before)) ∧
    order.length = N * M ∧
    (deliver FileSink.asLogger sink order).disk = append_lines sink.env.now sink.disk order := by
  have hcount : threads.flatten.length = N * M := by
    rw [length_flatten_of_equal_lengths threads M hM, hN]
  have haccept : ∀ rs : List Log, List.Perm rs threads.flatten →
      ∀ r ∈ rs, ¬ r.level < sink.logger.log_level := by
    intro rs hp r hr
    obtain ⟨t, ht, hrt⟩ := List.mem_flatten.mp ((hp.mem_iff).mp hr)
    exact hlevel t ht r hrt
  obtain ⟨hq, errors, hlen, hh⟩ :=
    ConsoleApp.history_after_close hnew hinit hbefore hduring hrun hreturned
  obtain ⟨-, more, hm, hl⟩ := ConsoleApp.sink_after_close hnew hinit hbefore hrun hreturned
  rw [hduring, List.append_eq_nil] at hm
  obtain ⟨hmore, -⟩ := hm
  subst hmore
  have hlen1 : (submitted before).length = N * M := by rw [hpushes.length_eq, hcount]
  refine ⟨?_, ?_, hlen1, ?_, ?_, ?_⟩
  · simp [ConsoleApp.get_history, hh, hlen, hlen1]
  · simp [ConsoleApp.get_queue_size, ThreadQueue.size, hq]
  · rw [hl]
    simp only [Option.map_some', deliver, List.foldl_nil]
    exact congrArg some
      (FileSink.deliver_accepted (submitted before) sink (haccept _ hpushes) hopen hgood hwrite)
  · rw [horder.length_eq, hcount]
  · exact FileSink.deliver_accepted order sink (haccept _ horder) hopen hgood hwrite

/-- C17 with two threads of two records each, pushed alternately while the
worker runs. -/
theorem C17_concurrent_producers_lose_nothing_witness :
    ∃ app1 : ConsoleApp FileSink,
      ConsoleApp.run FileSink.asLogger example_status example_app
        ([.add_test_msg "thread 0 msg 0" .INFO, .add_test_msg "thread 1 msg 0" .INFO,
            .worker, .worker, .add_test_msg "thread 1 msg 1" .INFO, .worker,
            .add_test_msg "thread 0 msg 1" .INFO] ++
          .close_clear :: [.close_stop, .worker, .worker, .worker, .worker, .worker, .worker,
            .worker, .worker, .worker, .worker, .worker, .worker, .worker, .worker, .worker,
            .close_join]) = some app1 ∧
      app1.get_history = 2 * 2 ∧
      app1.logger.map (fun s => s.disk)
        = some ("[t] [INFO] thread 0 msg 0\n[t] [INFO] thread 1 msg 0\n" ++
            "[t] [INFO] thread 1 msg 1\n[t] [INFO] thread 0 msg 1\n") :=
  ⟨⟨some ⟨⟨"app.txt", ⟨true, false⟩, .INFO⟩,
        "[t] [INFO] thread 0 msg 0\n[t] [INFO] thread 1 msg 0\n" ++
          "[t] [INFO] thread 1 msg 1\n[t] [INFO] thread 0 msg 1\n",
        ⟨"t", true, true⟩⟩,
      ⟨[], true⟩,
      ["[INFO] thread 0 msg 0 (ok)", "[INFO] thread 1 msg 0 (ok)",
        "[INFO] thread 1 msg 1 (ok)", "[INFO] thread 0 msg 1 (ok)"],
      false, .finished, false, "file", .idle, []⟩,
    rfl,
    (C17_concurrent_producers_lose_nothing example_status (example_sink true)
      [[⟨"thread 0 msg 0", .INFO⟩, ⟨"thread 0 msg 1", .INFO⟩],
        [⟨"thread 1 msg 0", .INFO⟩, ⟨"thread 1 msg 1", .INFO⟩]] 2 2 _ example_app _
      [.add_test_msg "thread 0 msg 0" .INFO, .add_test_msg "thread 1 msg 0" .INFO,
        .worker, .worker, .add_test_msg "thread 1 msg 1" .INFO, .worker,
        .add_test_msg "thread 0 msg 1" .INFO]
      [.close_stop, .worker, .worker, .worker, .worker, .worker, .worker,
        .worker, .worker, .worker, .worker, .worker, .worker, .worker, .worker, .worker,
        .close_join]
      [⟨"thread 1 msg 0", .INFO⟩, ⟨"thread 0 msg 0", .INFO⟩, ⟨"thread 0 msg 1", .INFO⟩,
        ⟨"thread 1 msg 1", .INFO⟩]
      rfl (by decide) (by decide) (by decide) (by decide) rfl rfl rfl (by decide) rfl
      (by decide) rfl rfl (by decide)).1,
    rfl⟩

end LoggingSystem
